import Mathlib

set_option linter.unreachableTactic false
set_option linter.unusedVariables false
set_option linter.unusedTactic false
set_option maxHeartbeats 1000000

/-!
Verification of the Gregorian–Jalali conversion engine and the calendar
preference resolver of the `jalali_calendar` app.

The Python sources are embedded shallowly:

* machine integers are `Int` (Python integers are unbounded; Python's `//`
  and `%` on a positive divisor coincide with `Int`'s `/` and `%`, which
  are Euclidean and agree with floor division for positive divisors);
* `datetime.date` values are triples `(year, month, day) : Int × Int × Int`
  validated by `mkDate` (CPython accepts years 1..9999 and checks the
  month/day ranges); date subtraction `(a - b).days` is the difference of
  proleptic-Gregorian ordinals, embedded as `dayNoOfGreg` (days counted
  from Gregorian 1600-01-01 = day 0);
* fallible code returns `Option` or `Except`.

`jalali_to_gregorian`'s Gregorian decomposition is transcribed with its
two sequential phases split into `stage1` (the 100-year correction) and
`stage2` (the 4-year/1-year decomposition); each local variable of the
Python body is inlined.  `monthWalk` is the `for` loop over the
enumerated Gregorian month-length table with its `else` clause mapped to
`none`.
-/

/-! ## Conversion engine: data tables and date model -/

def _GREGORIAN_MONTH_LENGTHS : List Int := [31, 28, 31, 30, 31, 30, 31, 31, 30, 31, 30, 31]

def _JALALI_MONTH_LENGTHS : List Int := [31, 31, 31, 31, 31, 31, 30, 30, 30, 30, 30, 29]

def _is_gregorian_leap (year : Int) : Bool :=
  decide (year % 4 = 0 ∧ (year % 100 ≠ 0 ∨ year % 400 = 0))

/-- Length of a Gregorian month given the leap flag. -/
def gregMonthLenF (leap : Bool) (m : Int) : Int :=
  if m = 1 then 31 else if m = 2 then (if leap then 29 else 28)
  else if m = 3 then 31 else if m = 4 then 30 else if m = 5 then 31
  else if m = 6 then 30 else if m = 7 then 31 else if m = 8 then 31
  else if m = 9 then 30 else if m = 10 then 31 else if m = 11 then 30 else 31

/-- Length of a Gregorian month as `datetime.date` validates it. -/
def gregMonthLen (y m : Int) : Int :=
  gregMonthLenF (_is_gregorian_leap y) m

/-- The month/day validity check performed by `datetime.date`. -/
def ValidGreg (y m d : Int) : Prop :=
  1 ≤ m ∧ m ≤ 12 ∧ 1 ≤ d ∧ d ≤ gregMonthLen y m

instance (y m d : Int) : Decidable (ValidGreg y m d) := by
  unfold ValidGreg; infer_instance

/-- `datetime.date(y, m, d)`: succeeds exactly on valid dates with year 1..9999. -/
def mkDate (y m d : Int) : Option (Int × Int × Int) :=
  if 1 ≤ y ∧ y ≤ 9999 ∧ ValidGreg y m d then some (y, m, d) else none

/-- Cumulative length of the first `k` Gregorian months (`k ≤ 12`),
as `datetime.date` counts days within a year. -/
def gregCumLen (leap : Bool) (k : Int) : Int :=
  if k ≤ 0 then 0 else if k = 1 then 31
  else (if k = 2 then 59 else if k = 3 then 90 else if k = 4 then 120 else if k = 5 then 151
    else if k = 6 then 181 else if k = 7 then 212 else if k = 8 then 243 else if k = 9 then 273
    else if k = 10 then 304 else if k = 11 then 334 else 365) + (if leap then 1 else 0)

/-- Day number of Gregorian 1 January of year `y`, counted from 1600-01-01. -/
def gregYearStart (y : Int) : Int :=
  365 * (y - 1600) + ((y - 1) / 4 - (y - 1) / 100 + (y - 1) / 400) - 387

/-- Proleptic-Gregorian day number of a date, counted from 1600-01-01
(the difference of two `dayNoOfGreg` values is `(a - b).days` in Python). -/
def dayNoOfGreg (y m d : Int) : Int :=
  gregYearStart y + gregCumLen (_is_gregorian_leap y) (m - 1) + (d - 1)

/-- Python `date` comparison: lexicographic on (year, month, day). -/
def dateLt (a b : Int × Int × Int) : Bool :=
  decide (a.1 < b.1 ∨ (a.1 = b.1 ∧ (a.2.1 < b.2.1 ∨ (a.2.1 = b.2.1 ∧ a.2.2 < b.2.2))))

/-! ## `jalali_to_gregorian`: day-number decomposition -/

structure GregSplit where
  gy : Int
  leap : Bool
  rest : Int
deriving DecidableEq

/-- Second phase of the Gregorian decomposition of `jalali_to_gregorian`:
`gy += 4 * (g // 1461); g %= 1461; if g >= 366: leap=False; g -= 1; gy += g//365; g %= 365`. -/
def stage2 (gy1 g2 : Int) (leap1 : Bool) : GregSplit :=
  if g2 % 1461 ≥ 366 then
    ⟨gy1 + 4 * (g2 / 1461) + (g2 % 1461 - 1) / 365, false, (g2 % 1461 - 1) % 365⟩
  else ⟨gy1 + 4 * (g2 / 1461), leap1, g2 % 1461⟩

/-- First phase: the century correction
`if g >= 36525: g -= 1; gy += 100*(g//36524); g %= 36524; if g >= 365: g += 1 else: leap = False`. -/
def stage1 (gy0 g1 : Int) : GregSplit :=
  if g1 ≥ 36525 then
    (if (g1 - 1) % 36524 ≥ 365 then
      stage2 (gy0 + 100 * ((g1 - 1) / 36524)) ((g1 - 1) % 36524 + 1) true
    else
      stage2 (gy0 + 100 * ((g1 - 1) / 36524)) ((g1 - 1) % 36524) false)
  else stage2 gy0 g1 true

/-- Decomposition of a Gregorian-epoch day number into year, leap flag and
day-of-year: `gy = 1600 + 400 * (g // 146097); g %= 146097; ...`. -/
def yearSplit (g0 : Int) : GregSplit :=
  stage1 (1600 + 400 * (g0 / 146097)) (g0 % 146097)

/-- The `for i, month_len in enumerate(_GREGORIAN_MONTH_LENGTHS)` loop of
`jalali_to_gregorian`; the `else` clause of the `for` becomes `none`. -/
def monthWalk : Bool → Int → Nat → List Int → Option (Int × Int)
  | _, _, _, [] => none
  | leap, g, i, m :: rest =>
    let ml := if i = 1 ∧ leap then m + 1 else m
    if g < ml then some ((i : Int) + 1, g + 1)
    else monthWalk leap (g - ml) (i + 1) rest

/-- Full decomposition of a day number into a Gregorian (year, month, day). -/
def gregOfDayNo (g : Int) : Option (Int × Int × Int) :=
  (monthWalk (yearSplit g).leap (yearSplit g).rest 0 _GREGORIAN_MONTH_LENGTHS).map
    (fun p => ((yearSplit g).gy, p.1, p.2))

/-- Sum of the first `k` entries of a month table
(`none` when the Python loop would index past the end). -/
def sumFirst : Nat → List Int → Option Int
  | 0, _ => some 0
  | _ + 1, [] => none
  | k + 1, m :: rest => (sumFirst k rest).map (fun s => m + s)

/-- `jalali_to_gregorian` on a normalized integer triple.
`jy -= 979; jm -= 1; jd -= 1`; the day-number formula; the cycle
decomposition; the month walk; the final `date(...)` construction. -/
def jalali_to_gregorian (jy jm jd : Int) : Option (Int × Int × Int) := do
  let cum ← sumFirst (jm - 1).toNat _JALALI_MONTH_LENGTHS
  let jy0 := jy - 979
  let jDayNo := 365 * jy0 + jy0 / 33 * 8 + ((jy0 % 33) + 3) / 4 + cum + (jd - 1)
  let gDayNo := jDayNo + 79
  match gregOfDayNo gDayNo with
  | none => none
  | some (gy, gm, gd) => mkDate gy gm gd

/-- `is_jalali_leap`: converts both year starts and compares the day gap. -/
def is_jalali_leap (year : Int) : Option Bool := do
  let s ← jalali_to_gregorian year 1 1
  let n ← jalali_to_gregorian (year + 1) 1 1
  pure (decide (dayNoOfGreg n.1 n.2.1 n.2.2 - dayNoOfGreg s.1 s.2.1 s.2.2 = 366))

/-- `_jalali_month_length`: 31 for months ≤ 6, 30 for months ≤ 11,
30/29 for month 12 depending on the leap predicate. -/
def _jalali_month_length (year month : Int) : Option Int :=
  if month ≤ 6 then some 31
  else if month ≤ 11 then some 30
  else (is_jalali_leap year).map (fun b => if b then 30 else 29)

/-- The `JalaliDate` frozen dataclass (fields only; validation in `mk?`). -/
structure JalaliDate where
  year : Int
  month : Int
  day : Int
deriving DecidableEq

/-- `JalaliDate.__post_init__`: month must be 1..12, then day must be
1..`_jalali_month_length`; a failed check raises, i.e. yields `none`. -/
def JalaliDate.mk? (year month day : Int) : Option JalaliDate :=
  if 1 ≤ month ∧ month ≤ 12 then
    match _jalali_month_length year month with
    | none => none
    | some maxDay => if 1 ≤ day ∧ day ≤ maxDay then some ⟨year, month, day⟩ else none
  else none

/-- `gregorian_to_jalali` on a normalized integer triple: build the target
date, pick the candidate Jalali year `gy - 621` with one conditional
decrement, split the day offset by the 186-day boundary, and construct the
validated `JalaliDate`. -/
def gregorian_to_jalali (gy gm gd : Int) : Option JalaliDate := do
  let target ← mkDate gy gm gd
  let jy0 := gy - 621
  let s0 ← jalali_to_gregorian jy0 1 1
  let jys ←
    if dateLt target s0 then do
      let s1 ← jalali_to_gregorian (jy0 - 1) 1 1
      pure (jy0 - 1, s1)
    else pure (jy0, s0)
  let days := dayNoOfGreg target.1 target.2.1 target.2.2 -
    dayNoOfGreg jys.2.1 jys.2.2.1 jys.2.2.2
  let md :=
    if days < 186 then (1 + days / 31, 1 + days % 31)
    else (7 + (days - 186) / 30, 1 + (days - 186) % 30)
  JalaliDate.mk? jys.1 md.1 md.2

/-! ## Derived closed forms used by the proofs -/

/-- Day number of Jalali 1 Farvardin of year `y` (the value
`jalali_to_gregorian` computes as `g_day_no` for `(y, 1, 1)`). -/
def jalaliYearStartDayNo (y : Int) : Int :=
  365 * (y - 979) + (y - 979) / 33 * 8 + (((y - 979) % 33) + 3) / 4 + 79

/-- Closed-form Jalali leap predicate: the year length implied by
`jalaliYearStartDayNo` is 366. -/
def jLeapB (y : Int) : Bool :=
  decide (jalaliYearStartDayNo (y + 1) - jalaliYearStartDayNo y = 366)

/-- Closed-form Jalali month length matching `_JALALI_MONTH_LENGTHS`. -/
def jalaliMonthLenB (y m : Int) : Int :=
  if m ≤ 6 then 31 else if m ≤ 11 then 30 else if jLeapB y then 30 else 29

/-- Validity of a Jalali triple in closed form. -/
def ValidJalaliB (y m d : Int) : Prop :=
  1 ≤ m ∧ m ≤ 12 ∧ 1 ≤ d ∧ d ≤ jalaliMonthLenB y m

instance (y m d : Int) : Decidable (ValidJalaliB y m d) := by
  unfold ValidJalaliB; infer_instance

/-- Cumulative length of the first `k` Jalali months, closed form. -/
def jalaliCumLen (k : Int) : Int :=
  if k ≤ 6 then 31 * k else if k ≤ 11 then 186 + 30 * (k - 6) else 336 + 29 * (k - 11)

/-! ## Correctness of the cycle decomposition -/

theorem stage2_lo (gy1 C v : Int) (lp : Bool) (_hC : 0 ≤ C) (h0 : 0 ≤ v) (h1 : v < 366) :
    stage2 gy1 (1461 * C + v) lp = ⟨gy1 + 4 * C, lp, v⟩ := by
  unfold stage2
  rw [show (1461 * C + v) % 1461 = v from by omega,
    show (1461 * C + v) / 1461 = C from by omega, if_neg (by omega)]

theorem stage2_hi (gy1 C D w : Int) (lp : Bool) (_hC : 0 ≤ C) (hD1 : 1 ≤ D) (hD2 : D ≤ 3)
    (hw1 : 0 ≤ w) (hw2 : w < 365) :
    stage2 gy1 (1461 * C + (365 * D + w + 1)) lp = ⟨gy1 + 4 * C + D, false, w⟩ := by
  unfold stage2
  rw [show (1461 * C + (365 * D + w + 1)) % 1461 = 365 * D + w + 1 from by omega,
    show (1461 * C + (365 * D + w + 1)) / 1461 = C from by omega, if_pos (by omega),
    show 365 * D + w + 1 - 1 = 365 * D + w from by omega,
    show (365 * D + w) / 365 = D from by omega,
    show (365 * D + w) % 365 = w from by omega]

theorem stage1_lo (gy0 u : Int) (h1 : u < 36525) : stage1 gy0 u = stage2 gy0 u true := by
  unfold stage1
  rw [if_neg (by omega)]

theorem stage1_hi_a (gy0 B t : Int) (hB1 : 1 ≤ B) (hB2 : B ≤ 3) (ht1 : 366 ≤ t)
    (ht2 : t ≤ 36524) :
    stage1 gy0 (36524 * B + t) = stage2 (gy0 + 100 * B) t true := by
  unfold stage1
  rw [if_pos (by omega), show 36524 * B + t - 1 = 36524 * B + (t - 1) from by omega,
    show (36524 * B + (t - 1)) % 36524 = t - 1 from by omega,
    show (36524 * B + (t - 1)) / 36524 = B from by omega,
    if_pos (by omega), show t - 1 + 1 = t from by omega]

theorem stage1_hi_b (gy0 B t : Int) (hB1 : 1 ≤ B) (hB2 : B ≤ 3) (ht1 : 1 ≤ t)
    (ht2 : t ≤ 365) :
    stage1 gy0 (36524 * B + t) = stage2 (gy0 + 100 * B) (t - 1) false := by
  unfold stage1
  rw [if_pos (by omega), show 36524 * B + t - 1 = 36524 * B + (t - 1) from by omega,
    show (36524 * B + (t - 1)) % 36524 = t - 1 from by omega,
    show (36524 * B + (t - 1)) / 36524 = B from by omega,
    if_neg (by omega)]

theorem yearSplit_decomp (A u : Int) (h0 : 0 ≤ u) (h1 : u < 146097) :
    yearSplit (146097 * A + u) = stage1 (1600 + 400 * A) u := by
  unfold yearSplit
  rw [show (146097 * A + u) / 146097 = A from by omega,
    show (146097 * A + u) % 146097 = u from by omega]

theorem yearSplit_start (y r : Int) (h0 : 0 ≤ r)
    (h1 : r < 365 + (if _is_gregorian_leap y then 1 else 0)) :
    yearSplit (gregYearStart y + r) = ⟨y, _is_gregorian_leap y, r⟩ := by
  obtain ⟨A, B, C, D, hy, hB1, hB2, hC1, hC2, hD1, hD2⟩ :
      ∃ A B C D : Int, y = 1600 + 400 * A + 100 * B + 4 * C + D ∧
        0 ≤ B ∧ B < 4 ∧ 0 ≤ C ∧ C < 25 ∧ 0 ≤ D ∧ D < 4 := by
    refine ⟨(y - 1600) / 400, ((y - 1600) % 400) / 100, (((y - 1600) % 400) % 100) / 4,
      (((y - 1600) % 400) % 100) % 4, by omega, by omega, by omega, by omega, by omega,
      by omega, by omega⟩
  have hleq : _is_gregorian_leap y
      = decide (D = 0 ∧ (4 * C + D ≠ 0 ∨ 100 * B + 4 * C + D = 0)) := by
    unfold _is_gregorian_leap
    refine decide_eq_decide.mpr ?_
    constructor <;> intro hh <;> exact ⟨by omega, by omega⟩
  rw [hleq] at h1 ⊢
  simp only [decide_eq_true_eq] at h1
  subst hy
  rcases eq_or_lt_of_le hB1 with hB0 | hB1'
  · -- B = 0: no century correction
    rcases eq_or_lt_of_le hD1 with hD0 | hD1'
    · -- D = 0: the year starts a leap 4-year block
      rw [if_pos (by omega)] at h1
      rw [show gregYearStart (1600 + 400 * A + 100 * B + 4 * C + D) + r
          = 146097 * A + (1461 * C + r) from by unfold gregYearStart; omega,
        yearSplit_decomp A _ (by omega) (by omega), stage1_lo _ _ (by omega),
        stage2_lo _ _ _ _ hC1 (by omega) (by omega), GregSplit.mk.injEq]
      exact ⟨by omega, (decide_eq_true (by omega)).symm, rfl⟩
    · -- 1 ≤ D: a common year inside the block
      rw [if_neg (by omega)] at h1
      rw [show gregYearStart (1600 + 400 * A + 100 * B + 4 * C + D) + r
          = 146097 * A + (1461 * C + (365 * D + r + 1)) from by unfold gregYearStart; omega,
        yearSplit_decomp A _ (by omega) (by omega), stage1_lo _ _ (by omega),
        stage2_hi _ _ _ _ _ hC1 (by omega) (by omega) (by omega) (by omega),
        GregSplit.mk.injEq]
      exact ⟨by omega, (decide_eq_false (by omega)).symm, rfl⟩
  · -- 1 ≤ B: the century correction fires
    rcases eq_or_lt_of_le hD1 with hD0 | hD1'
    · rcases eq_or_lt_of_le hC1 with hC0 | hC1'
      · -- D = 0, C = 0: century year, not leap
        rw [if_neg (by omega)] at h1
        rw [show gregYearStart (1600 + 400 * A + 100 * B + 4 * C + D) + r
            = 146097 * A + (36524 * B + (r + 1)) from by unfold gregYearStart; omega,
          yearSplit_decomp A _ (by omega) (by omega),
          stage1_hi_b _ _ _ (by omega) (by omega) (by omega) (by omega),
          show r + 1 - 1 = 1461 * 0 + r from by omega,
          stage2_lo _ _ _ _ (by omega) (by omega) (by omega), GregSplit.mk.injEq]
        exact ⟨by omega, (decide_eq_false (by omega)).symm, rfl⟩
      · -- D = 0, C ≥ 1: leap year inside a corrected century
        rw [if_pos (by omega)] at h1
        rw [show gregYearStart (1600 + 400 * A + 100 * B + 4 * C + D) + r
            = 146097 * A + (36524 * B + (1461 * C + r)) from by unfold gregYearStart; omega,
          yearSplit_decomp A _ (by omega) (by omega),
          stage1_hi_a _ _ _ (by omega) (by omega) (by omega) (by omega),
          stage2_lo _ _ _ _ (by omega) (by omega) (by omega), GregSplit.mk.injEq]
        exact ⟨by omega, (decide_eq_true (by omega)).symm, rfl⟩
    · -- 1 ≤ D: common year inside a corrected century
      rw [if_neg (by omega)] at h1
      rw [show gregYearStart (1600 + 400 * A + 100 * B + 4 * C + D) + r
          = 146097 * A + (36524 * B + (1461 * C + (365 * D + r + 1)))
          from by unfold gregYearStart; omega,
        yearSplit_decomp A _ (by omega) (by omega),
        stage1_hi_a _ _ _ (by omega) (by omega) (by omega) (by omega),
        stage2_hi _ _ _ _ _ (by omega) (by omega) (by omega) (by omega) (by omega),
        GregSplit.mk.injEq]
      exact ⟨by omega, (decide_eq_false (by omega)).symm, rfl⟩

theorem leapBound_of_or (y r : Int)
    (h : r < 365 ∨ (r < 366 ∧ _is_gregorian_leap y = true)) :
    r < 365 + (if _is_gregorian_leap y then 1 else 0) := by
  by_cases hb : _is_gregorian_leap y = true
  · rw [if_pos hb]; omega
  · rw [if_neg hb]
    rcases h with h | ⟨h, hl⟩
    · omega
    · exact absurd hl hb

theorem or_of_leapBound (y r : Int)
    (h : r < 365 + (if _is_gregorian_leap y then 1 else 0)) :
    r < 365 ∨ (r < 366 ∧ _is_gregorian_leap y = true) := by
  by_cases hb : _is_gregorian_leap y = true
  · rw [if_pos hb] at h; exact Or.inr ⟨by omega, hb⟩
  · rw [if_neg hb] at h; exact Or.inl (by omega)

/-- Every day number lies in exactly one Gregorian year: existence half. -/
theorem exists_year_decomp (g0 : Int) :
    ∃ y r : Int, 0 ≤ r ∧ (r < 365 ∨ (r < 366 ∧ _is_gregorian_leap y = true)) ∧
      g0 = gregYearStart y + r := by
  obtain ⟨A, u, hu, h0, h1⟩ :
      ∃ A u : Int, g0 = 146097 * A + u ∧ 0 ≤ u ∧ u < 146097 :=
    ⟨g0 / 146097, g0 % 146097, by omega, by omega, by omega⟩
  rcases lt_or_ge u 36525 with hc | hc
  · -- inside the first (leap) century of the cycle
    obtain ⟨C, w, huw, hw0, hw1, hC0, hC1⟩ :
        ∃ C w : Int, u = 1461 * C + w ∧ 0 ≤ w ∧ w < 1461 ∧ 0 ≤ C ∧ C ≤ 24 :=
      ⟨u / 1461, u % 1461, by omega, by omega, by omega, by omega, by omega⟩
    rcases lt_or_ge w 366 with hw | hw
    · refine ⟨1600 + 400 * A + 4 * C, w, hw0, Or.inr ⟨hw, ?_⟩, ?_⟩
      · exact decide_eq_true (by constructor <;> omega)
      · have hg : g0 = 146097 * A + 1461 * C + w := by omega
        clear hu huw hc hw h0 h1 hw0 hw1
        unfold gregYearStart; omega
    · obtain ⟨D, r, hdr, hr0, hr1, hD0, hD1⟩ :
          ∃ D r : Int, w - 1 = 365 * D + r ∧ 0 ≤ r ∧ r < 365 ∧ 1 ≤ D ∧ D ≤ 3 :=
        ⟨(w - 1) / 365, (w - 1) % 365, by omega, by omega, by omega, by omega, by omega⟩
      refine ⟨1600 + 400 * A + 4 * C + D, r, hr0, Or.inl hr1, ?_⟩
      have hg : g0 = 146097 * A + 1461 * C + 365 * D + r + 1 := by omega
      clear hu huw hdr hc hw h0 h1 hw0 hw1
      unfold gregYearStart; omega
  · -- a later century: the correction applies
    obtain ⟨B, t, hbt, ht0, ht1, hB0, hB1⟩ :
        ∃ B t : Int, u - 1 = 36524 * B + t ∧ 0 ≤ t ∧ t < 36524 ∧ 1 ≤ B ∧ B ≤ 3 :=
      ⟨(u - 1) / 36524, (u - 1) % 36524, by omega, by omega, by omega, by omega, by omega⟩
    rcases lt_or_ge t 365 with ht | ht
    · refine ⟨1600 + 400 * A + 100 * B, t, ht0, Or.inl ht, ?_⟩
      have hg : g0 = 146097 * A + 36524 * B + t + 1 := by omega
      clear hu hbt hc ht h0 h1 ht0 ht1
      unfold gregYearStart; omega
    · obtain ⟨C, w, huw, hw0, hw1, hC0, hC1⟩ :
          ∃ C w : Int, t + 1 = 1461 * C + w ∧ 0 ≤ w ∧ w < 1461 ∧ 0 ≤ C ∧ C ≤ 24 :=
        ⟨(t + 1) / 1461, (t + 1) % 1461, by omega, by omega, by omega, by omega, by omega⟩
      rcases lt_or_ge w 366 with hw | hw
      · have hCpos : 1 ≤ C := by omega
        refine ⟨1600 + 400 * A + 100 * B + 4 * C, w, hw0, Or.inr ⟨hw, ?_⟩, ?_⟩
        · exact decide_eq_true (by constructor <;> omega)
        · have hg : g0 = 146097 * A + 36524 * B + 1461 * C + w := by omega
          clear hu hbt huw hc ht h0 h1 ht0 ht1
          unfold gregYearStart; omega
      · obtain ⟨D, r, hdr, hr0, hr1, hD0, hD1⟩ :
            ∃ D r : Int, w - 1 = 365 * D + r ∧ 0 ≤ r ∧ r < 365 ∧ 1 ≤ D ∧ D ≤ 3 :=
          ⟨(w - 1) / 365, (w - 1) % 365, by omega, by omega, by omega, by omega, by omega⟩
        refine ⟨1600 + 400 * A + 100 * B + 4 * C + D, r, hr0, Or.inl hr1, ?_⟩
        have hg : g0 = 146097 * A + 36524 * B + 1461 * C + 365 * D + r + 1 := by omega
        clear hu hbt huw hdr hc ht hw h0 h1 ht0 ht1 hw0 hw1
        unfold gregYearStart; omega

/-- `yearSplit` recovers the year, the leap flag and the day-of-year of
any day number: the decomposition is exact and its residual is bounded. -/
theorem yearSplit_left_inverse (g0 : Int) :
    gregYearStart (yearSplit g0).gy + (yearSplit g0).rest = g0 ∧
    (yearSplit g0).leap = _is_gregorian_leap (yearSplit g0).gy ∧
    0 ≤ (yearSplit g0).rest ∧
    (yearSplit g0).rest < 365 + (if (yearSplit g0).leap then 1 else 0) := by
  obtain ⟨y, r, h0, hb, he⟩ := exists_year_decomp g0
  have hb' := leapBound_of_or y r hb
  rw [he, yearSplit_start y r h0 hb']
  exact ⟨rfl, rfl, h0, hb'⟩

/-- The month walk inverts the cumulative month decomposition. -/
theorem monthWalk_of_cum (leap : Bool) (m d : Int) (h1 : 1 ≤ m) (h2 : m ≤ 12)
    (h3 : 1 ≤ d) (h4 : d ≤ gregMonthLenF leap m) :
    monthWalk leap (gregCumLen leap (m - 1) + (d - 1)) 0 _GREGORIAN_MONTH_LENGTHS
      = some (m, d) := by
  cases leap <;> interval_cases m <;> norm_num [gregMonthLenF] at h4 <;>
    interval_cases d <;> decide

/-- Every in-range day-of-year decomposes as a cumulative month prefix plus a
valid day. -/
theorem exists_month_decomp (leap : Bool) (r : Int) (h0 : 0 ≤ r)
    (h1 : r < 365 + (if leap then 1 else 0)) :
    ∃ m d : Int, 1 ≤ m ∧ m ≤ 12 ∧ 1 ≤ d ∧ d ≤ gregMonthLenF leap m ∧
      gregCumLen leap (m - 1) + (d - 1) = r := by
  cases leap
  · norm_num at h1
    rcases lt_or_ge r 31 with h | h
    · exact ⟨1, r + 1, by norm_num, by norm_num, by omega,
        by first | (norm_num [gregMonthLenF]; omega) | norm_num [gregMonthLenF], by first | (norm_num [gregCumLen]; omega) | norm_num [gregCumLen]⟩
    rcases lt_or_ge r 59 with h | h
    · exact ⟨2, r - 31 + 1, by norm_num, by norm_num, by omega,
        by first | (norm_num [gregMonthLenF]; omega) | norm_num [gregMonthLenF], by first | (norm_num [gregCumLen]; omega) | norm_num [gregCumLen]⟩
    rcases lt_or_ge r 90 with h | h
    · exact ⟨3, r - 59 + 1, by norm_num, by norm_num, by omega,
        by first | (norm_num [gregMonthLenF]; omega) | norm_num [gregMonthLenF], by first | (norm_num [gregCumLen]; omega) | norm_num [gregCumLen]⟩
    rcases lt_or_ge r 120 with h | h
    · exact ⟨4, r - 90 + 1, by norm_num, by norm_num, by omega,
        by first | (norm_num [gregMonthLenF]; omega) | norm_num [gregMonthLenF], by first | (norm_num [gregCumLen]; omega) | norm_num [gregCumLen]⟩
    rcases lt_or_ge r 151 with h | h
    · exact ⟨5, r - 120 + 1, by norm_num, by norm_num, by omega,
        by first | (norm_num [gregMonthLenF]; omega) | norm_num [gregMonthLenF], by first | (norm_num [gregCumLen]; omega) | norm_num [gregCumLen]⟩
    rcases lt_or_ge r 181 with h | h
    · exact ⟨6, r - 151 + 1, by norm_num, by norm_num, by omega,
        by first | (norm_num [gregMonthLenF]; omega) | norm_num [gregMonthLenF], by first | (norm_num [gregCumLen]; omega) | norm_num [gregCumLen]⟩
    rcases lt_or_ge r 212 with h | h
    · exact ⟨7, r - 181 + 1, by norm_num, by norm_num, by omega,
        by first | (norm_num [gregMonthLenF]; omega) | norm_num [gregMonthLenF], by first | (norm_num [gregCumLen]; omega) | norm_num [gregCumLen]⟩
    rcases lt_or_ge r 243 with h | h
    · exact ⟨8, r - 212 + 1, by norm_num, by norm_num, by omega,
        by first | (norm_num [gregMonthLenF]; omega) | norm_num [gregMonthLenF], by first | (norm_num [gregCumLen]; omega) | norm_num [gregCumLen]⟩
    rcases lt_or_ge r 273 with h | h
    · exact ⟨9, r - 243 + 1, by norm_num, by norm_num, by omega,
        by first | (norm_num [gregMonthLenF]; omega) | norm_num [gregMonthLenF], by first | (norm_num [gregCumLen]; omega) | norm_num [gregCumLen]⟩
    rcases lt_or_ge r 304 with h | h
    · exact ⟨10, r - 273 + 1, by norm_num, by norm_num, by omega,
        by first | (norm_num [gregMonthLenF]; omega) | norm_num [gregMonthLenF], by first | (norm_num [gregCumLen]; omega) | norm_num [gregCumLen]⟩
    rcases lt_or_ge r 334 with h | h
    · exact ⟨11, r - 304 + 1, by norm_num, by norm_num, by omega,
        by first | (norm_num [gregMonthLenF]; omega) | norm_num [gregMonthLenF], by first | (norm_num [gregCumLen]; omega) | norm_num [gregCumLen]⟩
    exact ⟨12, r - 334 + 1, by norm_num, by norm_num, by omega,
      by first | (norm_num [gregMonthLenF]; omega) | norm_num [gregMonthLenF], by first | (norm_num [gregCumLen]; omega) | norm_num [gregCumLen]⟩
  · norm_num at h1
    rcases lt_or_ge r 31 with h | h
    · exact ⟨1, r + 1, by norm_num, by norm_num, by omega,
        by first | (norm_num [gregMonthLenF]; omega) | norm_num [gregMonthLenF], by first | (norm_num [gregCumLen]; omega) | norm_num [gregCumLen]⟩
    rcases lt_or_ge r 60 with h | h
    · exact ⟨2, r - 31 + 1, by norm_num, by norm_num, by omega,
        by first | (norm_num [gregMonthLenF]; omega) | norm_num [gregMonthLenF], by first | (norm_num [gregCumLen]; omega) | norm_num [gregCumLen]⟩
    rcases lt_or_ge r 91 with h | h
    · exact ⟨3, r - 60 + 1, by norm_num, by norm_num, by omega,
        by first | (norm_num [gregMonthLenF]; omega) | norm_num [gregMonthLenF], by first | (norm_num [gregCumLen]; omega) | norm_num [gregCumLen]⟩
    rcases lt_or_ge r 121 with h | h
    · exact ⟨4, r - 91 + 1, by norm_num, by norm_num, by omega,
        by first | (norm_num [gregMonthLenF]; omega) | norm_num [gregMonthLenF], by first | (norm_num [gregCumLen]; omega) | norm_num [gregCumLen]⟩
    rcases lt_or_ge r 152 with h | h
    · exact ⟨5, r - 121 + 1, by norm_num, by norm_num, by omega,
        by first | (norm_num [gregMonthLenF]; omega) | norm_num [gregMonthLenF], by first | (norm_num [gregCumLen]; omega) | norm_num [gregCumLen]⟩
    rcases lt_or_ge r 182 with h | h
    · exact ⟨6, r - 152 + 1, by norm_num, by norm_num, by omega,
        by first | (norm_num [gregMonthLenF]; omega) | norm_num [gregMonthLenF], by first | (norm_num [gregCumLen]; omega) | norm_num [gregCumLen]⟩
    rcases lt_or_ge r 213 with h | h
    · exact ⟨7, r - 182 + 1, by norm_num, by norm_num, by omega,
        by first | (norm_num [gregMonthLenF]; omega) | norm_num [gregMonthLenF], by first | (norm_num [gregCumLen]; omega) | norm_num [gregCumLen]⟩
    rcases lt_or_ge r 244 with h | h
    · exact ⟨8, r - 213 + 1, by norm_num, by norm_num, by omega,
        by first | (norm_num [gregMonthLenF]; omega) | norm_num [gregMonthLenF], by first | (norm_num [gregCumLen]; omega) | norm_num [gregCumLen]⟩
    rcases lt_or_ge r 274 with h | h
    · exact ⟨9, r - 244 + 1, by norm_num, by norm_num, by omega,
        by first | (norm_num [gregMonthLenF]; omega) | norm_num [gregMonthLenF], by first | (norm_num [gregCumLen]; omega) | norm_num [gregCumLen]⟩
    rcases lt_or_ge r 305 with h | h
    · exact ⟨10, r - 274 + 1, by norm_num, by norm_num, by omega,
        by first | (norm_num [gregMonthLenF]; omega) | norm_num [gregMonthLenF], by first | (norm_num [gregCumLen]; omega) | norm_num [gregCumLen]⟩
    rcases lt_or_ge r 335 with h | h
    · exact ⟨11, r - 305 + 1, by norm_num, by norm_num, by omega,
        by first | (norm_num [gregMonthLenF]; omega) | norm_num [gregMonthLenF], by first | (norm_num [gregCumLen]; omega) | norm_num [gregCumLen]⟩
    exact ⟨12, r - 335 + 1, by norm_num, by norm_num, by omega,
      by first | (norm_num [gregMonthLenF]; omega) | norm_num [gregMonthLenF], by first | (norm_num [gregCumLen]; omega) | norm_num [gregCumLen]⟩

/-- Backward direction of the month walk: a successful walk yields the unique
valid month/day decomposition of the residual. -/
theorem monthWalk_inv (leap : Bool) (r m d : Int) (h0 : 0 ≤ r)
    (h1 : r < 365 + (if leap then 1 else 0))
    (hw : monthWalk leap r 0 _GREGORIAN_MONTH_LENGTHS = some (m, d)) :
    1 ≤ m ∧ m ≤ 12 ∧ 1 ≤ d ∧ d ≤ gregMonthLenF leap m ∧
      gregCumLen leap (m - 1) + (d - 1) = r := by
  obtain ⟨m0, d0, hm1, hm2, hd1, hd2, hcum⟩ := exists_month_decomp leap r h0 h1
  have hw0 := monthWalk_of_cum leap m0 d0 hm1 hm2 hd1 hd2
  rw [hcum] at hw0
  rw [hw0] at hw
  obtain ⟨hm, hd⟩ := Prod.mk.injEq m0 d0 m d ▸ Option.some.injEq _ _ ▸ hw
  exact ⟨hm ▸ hm1, hm ▸ hm2, hd ▸ hd1, hm ▸ hd ▸ hd2, hm ▸ hd ▸ hcum⟩

/-- The month walk always lands inside the table for in-range residuals. -/
theorem monthWalk_total (leap : Bool) (r : Int) (h0 : 0 ≤ r)
    (h1 : r < 365 + (if leap then 1 else 0)) :
    ∃ m d : Int, monthWalk leap r 0 _GREGORIAN_MONTH_LENGTHS = some (m, d) := by
  obtain ⟨m0, d0, hm1, hm2, hd1, hd2, hcum⟩ := exists_month_decomp leap r h0 h1
  have hw0 := monthWalk_of_cum leap m0 d0 hm1 hm2 hd1 hd2
  rw [hcum] at hw0
  exact ⟨m0, d0, hw0⟩

/-- The within-year residual of a valid date is in range. -/
theorem cum_bound (leap : Bool) (m d : Int) (h1 : 1 ≤ m) (h2 : m ≤ 12)
    (h3 : 1 ≤ d) (h4 : d ≤ gregMonthLenF leap m) :
    0 ≤ gregCumLen leap (m - 1) + (d - 1) ∧
      gregCumLen leap (m - 1) + (d - 1) < 365 + (if leap then 1 else 0) := by
  cases leap <;> interval_cases m <;>
    norm_num [gregMonthLenF] at h4 <;> norm_num [gregCumLen] <;> omega

/-- `gregOfDayNo` inverts `dayNoOfGreg` on valid dates. -/
theorem gregOfDayNo_dayNo (y m d : Int) (h : ValidGreg y m d) :
    gregOfDayNo (dayNoOfGreg y m d) = some (y, m, d) := by
  obtain ⟨h1, h2, h3, h4⟩ := h
  unfold gregMonthLen at h4
  have hb := cum_bound (_is_gregorian_leap y) m d h1 h2 h3 h4
  unfold gregOfDayNo dayNoOfGreg
  rw [show gregYearStart y + gregCumLen (_is_gregorian_leap y) (m - 1) + (d - 1)
      = gregYearStart y + (gregCumLen (_is_gregorian_leap y) (m - 1) + (d - 1)) from by ring,
    yearSplit_start y _ hb.1 hb.2]
  dsimp only
  rw [monthWalk_of_cum _ m d h1 h2 h3 h4]
  rfl

/-- `gregOfDayNo` always succeeds, and its output is a valid date whose day
number is the input. -/
theorem gregOfDayNo_inv (N : Int) :
    ∃ y m d : Int, gregOfDayNo N = some (y, m, d) ∧ ValidGreg y m d ∧
      dayNoOfGreg y m d = N := by
  obtain ⟨hstart, hleap, hr0, hr1⟩ := yearSplit_left_inverse N
  obtain ⟨m0, d0, hm1, hm2, hd1, hd2, hcum⟩ :=
    exists_month_decomp (yearSplit N).leap (yearSplit N).rest hr0 hr1
  have hw := monthWalk_of_cum (yearSplit N).leap m0 d0 hm1 hm2 hd1 hd2
  rw [hcum] at hw
  refine ⟨(yearSplit N).gy, m0, d0, ?_, ⟨hm1, hm2, hd1, ?_⟩, ?_⟩
  · unfold gregOfDayNo
    rw [hw]
    rfl
  · unfold gregMonthLen
    rw [← hleap]
    exact hd2
  · unfold dayNoOfGreg
    rw [← hleap]
    omega

theorem gregYearStart_mono (a b : Int) (h : a ≤ b) : gregYearStart a ≤ gregYearStart b := by
  unfold gregYearStart; omega

theorem gregYearStart_succ_eq (y : Int) :
    gregYearStart (y + 1) = gregYearStart y + 365 + (if _is_gregorian_leap y then 1 else 0) := by
  by_cases hL : (y % 4 = 0 ∧ (y % 100 ≠ 0 ∨ y % 400 = 0))
  · rw [show _is_gregorian_leap y = true from decide_eq_true hL, if_pos rfl]
    unfold gregYearStart; omega
  · rw [show _is_gregorian_leap y = false from decide_eq_false hL,
      if_neg (by exact Bool.false_ne_true)]
    unfold gregYearStart; omega

/-- A valid date's day number lies between its year start and the next. -/
theorem dayNo_bracket (y m d : Int) (h : ValidGreg y m d) :
    gregYearStart y ≤ dayNoOfGreg y m d ∧ dayNoOfGreg y m d < gregYearStart (y + 1) := by
  obtain ⟨h1, h2, h3, h4⟩ := h
  unfold gregMonthLen at h4
  have hb := cum_bound (_is_gregorian_leap y) m d h1 h2 h3 h4
  rw [gregYearStart_succ_eq]
  unfold dayNoOfGreg
  omega

theorem jalaliYearStart_succ (y : Int) :
    365 ≤ jalaliYearStartDayNo (y + 1) - jalaliYearStartDayNo y ∧
      jalaliYearStartDayNo (y + 1) - jalaliYearStartDayNo y ≤ 366 := by
  unfold jalaliYearStartDayNo; omega

theorem jalaliYearStart_mono (a b : Int) (h : a ≤ b) :
    jalaliYearStartDayNo a ≤ jalaliYearStartDayNo b := by
  unfold jalaliYearStartDayNo; omega

/-- For Gregorian years 1800..2200, Farvardin 1 of Jalali year `gy - 622`
is not after 1 January of `gy`, and Farvardin 1 of `gy - 620` is after
31 December of `gy`. -/
theorem g2j_year_bracket (gy : Int) (h1 : 1800 ≤ gy) (h2 : gy ≤ 2200) :
    jalaliYearStartDayNo (gy - 622) ≤ gregYearStart gy ∧
      gregYearStart (gy + 1) ≤ jalaliYearStartDayNo (gy - 620) := by
  unfold jalaliYearStartDayNo gregYearStart; omega

/-- The Gregorian year produced for a day number in [0, 3068037) is
representable by `datetime.date`. -/
theorem gregOfDayNo_year_range (N y m d : Int)
    (hg : gregOfDayNo N = some (y, m, d)) (h0 : 0 ≤ N) (h1 : N < 3068037) :
    1600 ≤ y ∧ y ≤ 9999 := by
  obtain ⟨y', m', d', hg', hv, hd⟩ := gregOfDayNo_inv N
  rw [hg] at hg'
  obtain ⟨hy, hm, hdd⟩ : y = y' ∧ m = m' ∧ d = d' := by
    have := Option.some.injEq (y, m, d) (y', m', d') ▸ hg'
    simp only [Prod.mk.injEq] at this
    exact ⟨this.1, this.2.1, this.2.2⟩
  subst hy; subst hm; subst hdd
  obtain ⟨hb1, hb2⟩ := dayNo_bracket y m d hv
  constructor
  · by_contra hc
    have : y + 1 ≤ 1600 := by omega
    have h2 := gregYearStart_mono (y + 1) 1600 this
    have h3 : gregYearStart 1600 = 0 := by decide
    omega
  · by_contra hc
    have : (10000 : Int) ≤ y := by omega
    have h2 := gregYearStart_mono 10000 y this
    have h3 : gregYearStart 10000 = 3068037 := by decide
    omega

theorem sumFirst_jalali (m : Int) (h1 : 1 ≤ m) (h2 : m ≤ 12) :
    sumFirst (m - 1).toNat _JALALI_MONTH_LENGTHS = some (jalaliCumLen (m - 1)) := by
  interval_cases m <;> rfl

/-- Closed form of `jalali_to_gregorian` for in-range months. -/
theorem jalali_to_gregorian_eq (jy jm jd : Int) (h1 : 1 ≤ jm) (h2 : jm ≤ 12) :
    jalali_to_gregorian jy jm jd
      = match gregOfDayNo (jalaliYearStartDayNo jy + jalaliCumLen (jm - 1) + (jd - 1)) with
        | none => none
        | some (gy, gm, gd) => mkDate gy gm gd := by
  unfold jalali_to_gregorian
  rw [sumFirst_jalali jm h1 h2]
  simp only [Option.bind_eq_bind, Option.some_bind]
  rw [show 365 * (jy - 979) + (jy - 979) / 33 * 8 + ((jy - 979) % 33 + 3) / 4 +
      jalaliCumLen (jm - 1) + (jd - 1) + 79
      = jalaliYearStartDayNo jy + jalaliCumLen (jm - 1) + (jd - 1) from by
    unfold jalaliYearStartDayNo; ring]

/-- `jalali_to_gregorian` succeeds on any triple with in-range month whose
day number falls in the `datetime.date`-representable window, and the
resulting date is valid with the expected day number. -/
theorem j2g_some (jy jm jd : Int) (h1 : 1 ≤ jm) (h2 : jm ≤ 12)
    (hN0 : 0 ≤ jalaliYearStartDayNo jy + jalaliCumLen (jm - 1) + (jd - 1))
    (hN1 : jalaliYearStartDayNo jy + jalaliCumLen (jm - 1) + (jd - 1) < 3068037) :
    ∃ gy gm gd : Int, jalali_to_gregorian jy jm jd = some (gy, gm, gd) ∧
      ValidGreg gy gm gd ∧
      dayNoOfGreg gy gm gd = jalaliYearStartDayNo jy + jalaliCumLen (jm - 1) + (jd - 1) := by
  rw [jalali_to_gregorian_eq jy jm jd h1 h2]
  obtain ⟨gy, gm, gd, hg, hv, hd⟩ :=
    gregOfDayNo_inv (jalaliYearStartDayNo jy + jalaliCumLen (jm - 1) + (jd - 1))
  obtain ⟨hy1, hy2⟩ := gregOfDayNo_year_range _ gy gm gd hg hN0 hN1
  rw [hg]
  refine ⟨gy, gm, gd, ?_, hv, hd⟩
  show mkDate gy gm gd = some (gy, gm, gd)
  unfold mkDate
  rw [if_pos ⟨by omega, by omega, hv⟩]

/-- On the representable range, `is_jalali_leap` computes the closed-form
leap predicate `jLeapB`. -/
theorem is_jalali_leap_eq (y : Int) (hy1 : 979 ≤ y) (hy2 : y ≤ 8999) :
    is_jalali_leap y = some (jLeapB y) := by
  have hc : jalaliCumLen (1 - 1) = 0 := rfl
  have hB0 : jalaliYearStartDayNo 979 = 79 := by decide
  have hB1 : jalaliYearStartDayNo 9000 = 2929689 := by decide
  have hmono1 := jalaliYearStart_mono 979 y hy1
  have hmono2 := jalaliYearStart_mono (y + 1) 9000 (by omega)
  have hsucc := jalaliYearStart_succ y
  obtain ⟨a1, a2, a3, hg1, hv1, hd1⟩ := j2g_some y 1 1 (by omega) (by omega) (by omega) (by omega)
  obtain ⟨b1, b2, b3, hg2, hv2, hd2⟩ :=
    j2g_some (y + 1) 1 1 (by omega) (by omega) (by omega) (by omega)
  unfold is_jalali_leap
  rw [hg1, hg2]
  simp only [Option.bind_eq_bind, Option.some_bind]
  dsimp only
  rw [hd1, hd2]
  unfold jLeapB
  exact congrArg some (decide_eq_decide.mpr (by omega))

/-- On the representable range, `_jalali_month_length` computes the closed
form `jalaliMonthLenB`. -/
theorem jalali_month_length_eq (y m : Int) (hy1 : 979 ≤ y) (hy2 : y ≤ 8999) :
    _jalali_month_length y m = some (jalaliMonthLenB y m) := by
  unfold _jalali_month_length jalaliMonthLenB
  by_cases h6 : m ≤ 6
  · rw [if_pos h6, if_pos h6]
  · rw [if_neg h6, if_neg h6]
    by_cases h11 : m ≤ 11
    · rw [if_pos h11, if_pos h11]
    · rw [if_neg h11, if_neg h11, is_jalali_leap_eq y hy1 hy2]
      rfl

/-- The validating `JalaliDate` constructor succeeds exactly on triples that
are valid in the closed-form sense, and preserves the fields. -/
theorem mk?_iff (y m d : Int) (hy1 : 979 ≤ y) (hy2 : y ≤ 8999) :
    JalaliDate.mk? y m d = if ValidJalaliB y m d then some ⟨y, m, d⟩ else none := by
  unfold JalaliDate.mk?
  by_cases h1 : 1 ≤ m ∧ m ≤ 12
  · rw [if_pos h1, jalali_month_length_eq y m hy1 hy2]
    show (if 1 ≤ d ∧ d ≤ jalaliMonthLenB y m then some (⟨y, m, d⟩ : JalaliDate) else none) = _
    by_cases h2 : 1 ≤ d ∧ d ≤ jalaliMonthLenB y m
    · rw [if_pos h2, if_pos ⟨h1.1, h1.2, h2.1, h2.2⟩]
    · rw [if_neg h2, if_neg (by intro hv; exact h2 ⟨hv.2.2.1, hv.2.2.2⟩)]
  · rw [if_neg h1, if_neg (by intro hv; exact h1 ⟨hv.1, hv.2.1⟩)]

theorem cum_succ (leap : Bool) (m : Int) (h1 : 1 ≤ m) (h2 : m ≤ 12) :
    gregCumLen leap m = gregCumLen leap (m - 1) + gregMonthLenF leap m := by
  cases leap <;> interval_cases m <;> norm_num [gregCumLen, gregMonthLenF]

theorem cum_mono (leap : Bool) (a b : Int) (h1 : 0 ≤ a) (h2 : a ≤ b) (h3 : b ≤ 12) :
    gregCumLen leap a ≤ gregCumLen leap b := by
  have h4 : a ≤ 12 := le_trans h2 h3
  cases leap <;> interval_cases a <;> interval_cases b <;> decide

/-- Strict lexicographic order on valid dates implies strict day-number order. -/
theorem dayNo_lt_of_lex (a1 a2 a3 b1 b2 b3 : Int)
    (ha : ValidGreg a1 a2 a3) (hb : ValidGreg b1 b2 b3)
    (hlt : a1 < b1 ∨ (a1 = b1 ∧ (a2 < b2 ∨ (a2 = b2 ∧ a3 < b3)))) :
    dayNoOfGreg a1 a2 a3 < dayNoOfGreg b1 b2 b3 := by
  obtain ⟨ha1, ha2, ha3, ha4⟩ := ha
  obtain ⟨hb1, hb2, hb3, hb4⟩ := hb
  rcases hlt with h | ⟨he, h⟩
  · have c1 := (dayNo_bracket a1 a2 a3 ⟨ha1, ha2, ha3, ha4⟩).2
    have c2 := (dayNo_bracket b1 b2 b3 ⟨hb1, hb2, hb3, hb4⟩).1
    have c3 := gregYearStart_mono (a1 + 1) b1 (by omega)
    omega
  · subst he
    rcases h with h | ⟨hm, h⟩
    · unfold gregMonthLen at ha4
      have c1 := cum_succ (_is_gregorian_leap a1) a2 ha1 ha2
      have c2 := cum_mono (_is_gregorian_leap a1) a2 (b2 - 1) (by omega) (by omega) (by omega)
      unfold dayNoOfGreg
      omega
    · subst hm
      unfold dayNoOfGreg
      omega

/-- Python date comparison agrees with day-number comparison on valid dates. -/
theorem dateLt_iff (a1 a2 a3 b1 b2 b3 : Int)
    (ha : ValidGreg a1 a2 a3) (hb : ValidGreg b1 b2 b3) :
    dateLt (a1, a2, a3) (b1, b2, b3) = true ↔
      dayNoOfGreg a1 a2 a3 < dayNoOfGreg b1 b2 b3 := by
  unfold dateLt
  rw [decide_eq_true_eq]
  constructor
  · intro h
    exact dayNo_lt_of_lex a1 a2 a3 b1 b2 b3 ha hb h
  · intro h
    by_contra hc
    rcases lt_trichotomy b1 a1 with h1 | h1 | h1
    · have := dayNo_lt_of_lex b1 b2 b3 a1 a2 a3 hb ha (Or.inl h1)
      omega
    · subst h1
      rcases lt_trichotomy b2 a2 with h2 | h2 | h2
      · have := dayNo_lt_of_lex b1 b2 b3 b1 a2 a3 hb ha (Or.inr ⟨rfl, Or.inl h2⟩)
        omega
      · subst h2
        rcases lt_trichotomy b3 a3 with h3 | h3 | h3
        · have := dayNo_lt_of_lex b1 b2 b3 b1 b2 a3 hb ha (Or.inr ⟨rfl, Or.inr ⟨rfl, h3⟩⟩)
          omega
        · subst h3
          omega
        · exact hc (Or.inr ⟨rfl, Or.inr ⟨rfl, h3⟩⟩)
      · exact hc (Or.inr ⟨rfl, Or.inl h2⟩)
    · exact hc (Or.inl h1)

/-- The closed-form leap flag read back as a day-gap statement. -/
theorem jLeapB_iff (y : Int) :
    (jLeapB y = true) = (jalaliYearStartDayNo (y + 1) - jalaliYearStartDayNo y = 366) := by
  unfold jLeapB
  exact decide_eq_true_eq

/-- The month/day formulas of `gregorian_to_jalali` produce a valid Jalali
triple whose cumulative decomposition matches the day offset. -/
theorem jalali_month_split (jy days : Int) (hy1 : 979 ≤ jy) (hy2 : jy ≤ 8999)
    (h0 : 0 ≤ days)
    (h1 : days < jalaliYearStartDayNo (jy + 1) - jalaliYearStartDayNo jy) :
    ∃ jm jd : Int,
      (if days < 186 then ((1 : Int) + days / 31, (1 : Int) + days % 31)
        else ((7 : Int) + (days - 186) / 30, (1 : Int) + (days - 186) % 30)) = (jm, jd) ∧
      ValidJalaliB jy jm jd ∧
      jalaliCumLen (jm - 1) + (jd - 1) = days ∧
      JalaliDate.mk? jy jm jd = some ⟨jy, jm, jd⟩ := by
  have hsucc := jalaliYearStart_succ jy
  have hleapiff := jLeapB_iff jy
  by_cases hlt : days < 186
  · have hvj : ValidJalaliB jy (1 + days / 31) (1 + days % 31) := by
      refine ⟨by omega, by omega, by omega, ?_⟩
      rw [show jalaliMonthLenB jy (1 + days / 31) = 31 from by
        unfold jalaliMonthLenB; rw [if_pos (by omega)]]
      omega
    refine ⟨1 + days / 31, 1 + days % 31, by rw [if_pos hlt], hvj, ?_, ?_⟩
    · rw [show jalaliCumLen (1 + days / 31 - 1) = 31 * (1 + days / 31 - 1) from by
        unfold jalaliCumLen; rw [if_pos (by omega)]]
      omega
    · rw [mk?_iff jy _ _ hy1 hy2, if_pos hvj]
  · have hq : 0 ≤ (days - 186) / 30 ∧ (days - 186) / 30 ≤ 5 := by omega
    have hcum : jalaliCumLen (7 + (days - 186) / 30 - 1) = 186 + 30 * ((days - 186) / 30) := by
      unfold jalaliCumLen
      split_ifs <;> omega
    have hvj : ValidJalaliB jy (7 + (days - 186) / 30) (1 + (days - 186) % 30) := by
      refine ⟨by omega, by omega, by omega, ?_⟩
      unfold jalaliMonthLenB
      rw [if_neg (by omega)]
      by_cases h11 : 7 + (days - 186) / 30 ≤ 11
      · rw [if_pos h11]
        omega
      · rw [if_neg h11]
        by_cases hL : jLeapB jy = true
        · rw [if_pos hL]
          omega
        · rw [if_neg hL]
          have : ¬(jalaliYearStartDayNo (jy + 1) - jalaliYearStartDayNo jy = 366) :=
            hleapiff ▸ hL
          omega
    refine ⟨7 + (days - 186) / 30, 1 + (days - 186) % 30, by rw [if_neg hlt], hvj, ?_, ?_⟩
    · omega
    · rw [mk?_iff jy _ _ hy1 hy2, if_pos hvj]

/-- The cumulative decomposition of a valid Jalali triple stays inside the
year. -/
theorem jalali_cum_bracket (jy jm jd : Int) (h : ValidJalaliB jy jm jd) :
    0 ≤ jalaliCumLen (jm - 1) + (jd - 1) ∧
      jalaliCumLen (jm - 1) + (jd - 1)
        < jalaliYearStartDayNo (jy + 1) - jalaliYearStartDayNo jy := by
  obtain ⟨h1, h2, h3, h4⟩ := h
  have hsucc := jalaliYearStart_succ jy
  have hleapiff := jLeapB_iff jy
  unfold jalaliMonthLenB at h4
  by_cases h6 : jm ≤ 6
  · rw [if_pos h6] at h4
    rw [show jalaliCumLen (jm - 1) = 31 * (jm - 1) from by
      unfold jalaliCumLen; rw [if_pos (by omega)]]
    omega
  · rw [if_neg h6] at h4
    have hcum : jalaliCumLen (jm - 1) = 186 + 30 * (jm - 7) := by
      unfold jalaliCumLen
      split_ifs <;> omega
    by_cases h11 : jm ≤ 11
    · rw [if_pos h11] at h4
      omega
    · rw [if_neg h11] at h4
      by_cases hL : jLeapB jy = true
      · have : jalaliYearStartDayNo (jy + 1) - jalaliYearStartDayNo jy = 366 :=
          hleapiff ▸ hL
        rw [if_pos hL] at h4
        omega
      · rw [if_neg hL] at h4
        omega

/-- The `gregorian_to_jalali` month/day formulas invert the cumulative
decomposition of any valid Jalali triple. -/
theorem month_formula_inv (jm jd cum : Int) (h1 : 1 ≤ jm) (h2 : jm ≤ 12)
    (h3 : 1 ≤ jd) (h4 : jd ≤ 31) (h5 : 7 ≤ jm → jd ≤ 30)
    (hc : cum = jalaliCumLen (jm - 1) + (jd - 1)) :
    (if cum < 186 then ((1 : Int) + cum / 31, (1 : Int) + cum % 31)
      else ((7 : Int) + (cum - 186) / 30, (1 : Int) + (cum - 186) % 30)) = (jm, jd) := by
  subst hc
  interval_cases jm <;>
    first
      | (rw [if_pos (by norm_num [jalaliCumLen]; omega)] <;>
          rw [Prod.mk.injEq] <;>
          constructor <;> norm_num [jalaliCumLen] <;> omega)
      | (rw [if_neg (by norm_num [jalaliCumLen]; omega)] <;>
          rw [Prod.mk.injEq] <;>
          constructor <;> norm_num [jalaliCumLen] <;> omega)

/-- Forward round trip with the year-pick invariants: `gregorian_to_jalali`
succeeds on every valid Gregorian date of 1800..2200, the result is a valid
Jalali triple that converts back to the input, the chosen Jalali year is
`gy - 621` or `gy - 622`, and the target lies inside that Jalali year. -/
theorem g2j_roundtrip (gy gm gd : Int) (h1 : 1800 ≤ gy) (h2 : gy ≤ 2200)
    (hv : ValidGreg gy gm gd) :
    ∃ jy jm jd : Int,
      gregorian_to_jalali gy gm gd = some ⟨jy, jm, jd⟩ ∧
      ValidJalaliB jy jm jd ∧
      jalali_to_gregorian jy jm jd = some (gy, gm, gd) ∧
      (jy = gy - 621 ∨ jy = gy - 622) ∧
      jalaliYearStartDayNo jy ≤ dayNoOfGreg gy gm gd ∧
      dayNoOfGreg gy gm gd < jalaliYearStartDayNo (jy + 1) := by
  have hme : mkDate gy gm gd = some (gy, gm, gd) := by
    unfold mkDate
    rw [if_pos ⟨by omega, by omega, hv⟩]
  have hc : jalaliCumLen (1 - 1) = 0 := rfl
  have hjb := g2j_year_bracket gy h1 h2
  have hbr := dayNo_bracket gy gm gd hv
  have e1 : jalaliYearStartDayNo 1178 = 72763 := by decide
  have e2 : jalaliYearStartDayNo 1582 = 220321 := by decide
  have m1 := jalaliYearStart_mono 1178 (gy - 622) (by omega)
  have m2 := jalaliYearStart_mono (gy - 619) 1582 (by omega)
  have s1 := jalaliYearStart_succ (gy - 622)
  have s2 := jalaliYearStart_succ (gy - 621)
  have s3 := jalaliYearStart_succ (gy - 620)
  have n1 : jalaliYearStartDayNo (gy - 622 + 1) = jalaliYearStartDayNo (gy - 621) := by
    rw [show gy - 622 + 1 = gy - 621 from by omega]
  have n2 : jalaliYearStartDayNo (gy - 621 + 1) = jalaliYearStartDayNo (gy - 620) := by
    rw [show gy - 621 + 1 = gy - 620 from by omega]
  have n3 : jalaliYearStartDayNo (gy - 620 + 1) = jalaliYearStartDayNo (gy - 619) := by
    rw [show gy - 620 + 1 = gy - 619 from by omega]
  obtain ⟨c1, c2, c3, hg0, hv0, hd0⟩ :=
    j2g_some (gy - 621) 1 1 (by omega) (by omega) (by omega) (by omega)
  unfold gregorian_to_jalali
  rw [hme]
  simp only [Option.bind_eq_bind, Option.some_bind]
  rw [hg0]
  simp only [Option.bind_eq_bind, Option.some_bind]
  have hiff := dateLt_iff gy gm gd c1 c2 c3 hv hv0
  by_cases hlt : dayNoOfGreg gy gm gd < dayNoOfGreg c1 c2 c3
  · -- the target falls before Farvardin 1 of gy - 621: decrement once
    rw [if_pos (hiff.mpr hlt)]
    obtain ⟨f1, f2, f3, hg1, hv1, hd1⟩ :=
      j2g_some (gy - 622) 1 1 (by omega) (by omega) (by omega) (by omega)
    rw [show gy - 621 - 1 = gy - 622 from by omega, hg1]
    simp only [Option.pure_def, Option.bind_eq_bind, Option.some_bind]
    try dsimp only
    obtain ⟨jm, jd, hmd, hvj, hcum2, hmk⟩ :=
      jalali_month_split (gy - 622) (dayNoOfGreg gy gm gd - dayNoOfGreg f1 f2 f3)
        (by omega) (by omega) (by omega) (by omega)
    rw [hmd]
    try dsimp only
    rw [hmk]
    refine ⟨gy - 622, jm, jd, rfl, hvj, ?_, Or.inr rfl, by omega, by omega⟩
    rw [jalali_to_gregorian_eq (gy - 622) jm jd (by exact hvj.1) (by exact hvj.2.1),
      show jalaliYearStartDayNo (gy - 622) + jalaliCumLen (jm - 1) + (jd - 1)
        = dayNoOfGreg gy gm gd from by omega,
      gregOfDayNo_dayNo gy gm gd hv]
    exact hme
  · -- the target is on or after Farvardin 1 of gy - 621
    rw [if_neg (fun hcond => hlt (hiff.mp hcond))]
    simp only [Option.pure_def, Option.bind_eq_bind, Option.some_bind]
    try dsimp only
    obtain ⟨jm, jd, hmd, hvj, hcum2, hmk⟩ :=
      jalali_month_split (gy - 621) (dayNoOfGreg gy gm gd - dayNoOfGreg c1 c2 c3)
        (by omega) (by omega) (by omega) (by omega)
    rw [hmd]
    try dsimp only
    rw [hmk]
    refine ⟨gy - 621, jm, jd, rfl, hvj, ?_, Or.inl rfl, by omega, by omega⟩
    rw [jalali_to_gregorian_eq (gy - 621) jm jd (by exact hvj.1) (by exact hvj.2.1),
      show jalaliYearStartDayNo (gy - 621) + jalaliCumLen (jm - 1) + (jd - 1)
        = dayNoOfGreg gy gm gd from by omega,
      gregOfDayNo_dayNo gy gm gd hv]
    exact hme

/-- Backward round trip: converting a valid Jalali triple to a Gregorian
date in 1800..2200 and back recovers the triple. -/
theorem j2g_roundtrip (jy jm jd gy gm gd : Int) (hvj : ValidJalaliB jy jm jd)
    (hg : jalali_to_gregorian jy jm jd = some (gy, gm, gd))
    (h1 : 1800 ≤ gy) (h2 : gy ≤ 2200) :
    gregorian_to_jalali gy gm gd = some ⟨jy, jm, jd⟩ := by
  have hbrJ := jalali_cum_bracket jy jm jd hvj
  obtain ⟨hm1, hm2, hd3, hd4⟩ := hvj
  have hd45 : jd ≤ 31 ∧ (7 ≤ jm → jd ≤ 30) := by
    unfold jalaliMonthLenB at hd4
    split_ifs at hd4 <;> constructor <;> intros <;> omega
  rw [jalali_to_gregorian_eq jy jm jd hm1 hm2] at hg
  obtain ⟨y', m', d', hg', hv', hd'⟩ :=
    gregOfDayNo_inv (jalaliYearStartDayNo jy + jalaliCumLen (jm - 1) + (jd - 1))
  rw [hg'] at hg
  dsimp only at hg
  unfold mkDate at hg
  split_ifs at hg with hcond
  · obtain ⟨hy, hmm, hdd⟩ : gy = y' ∧ gm = m' ∧ gd = d' := by
      have := Option.some.injEq (y', m', d') (gy, gm, gd) ▸ hg
      simp only [Prod.mk.injEq] at this
      exact ⟨this.1.symm, this.2.1.symm, this.2.2.symm⟩
    subst hy; subst hmm; subst hdd
    have hbr := dayNo_bracket gy gm gd hv'
    have hjb := g2j_year_bracket gy h1 h2
    have hme : mkDate gy gm gd = some (gy, gm, gd) := by
      unfold mkDate
      rw [if_pos hcond]
    have hc : jalaliCumLen (1 - 1) = 0 := rfl
    have e1 : jalaliYearStartDayNo 1178 = 72763 := by decide
    have e2 : jalaliYearStartDayNo 1582 = 220321 := by decide
    have m1 := jalaliYearStart_mono 1178 (gy - 622) (by omega)
    have m2 := jalaliYearStart_mono (gy - 619) 1582 (by omega)
    have s1 := jalaliYearStart_succ (gy - 622)
    have s2 := jalaliYearStart_succ (gy - 621)
    have s3 := jalaliYearStart_succ (gy - 620)
    have n1 : jalaliYearStartDayNo (gy - 622 + 1) = jalaliYearStartDayNo (gy - 621) := by
      rw [show gy - 622 + 1 = gy - 621 from by omega]
    have n2 : jalaliYearStartDayNo (gy - 621 + 1) = jalaliYearStartDayNo (gy - 620) := by
      rw [show gy - 621 + 1 = gy - 620 from by omega]
    have n3 : jalaliYearStartDayNo (gy - 620 + 1) = jalaliYearStartDayNo (gy - 619) := by
      rw [show gy - 620 + 1 = gy - 619 from by omega]
    have nj : jalaliYearStartDayNo (jy + 1) - jalaliYearStartDayNo jy ≤ 366 :=
      (jalaliYearStart_succ jy).2
    have hrange : gy - 622 ≤ jy ∧ jy ≤ gy - 621 := by
      constructor
      · by_contra hcc
        have hmono := jalaliYearStart_mono (jy + 1) (gy - 622) (by omega)
        omega
      · by_contra hcc
        have hmono := jalaliYearStart_mono (gy - 620) jy (by omega)
        omega
    obtain ⟨c1, c2, c3, hg0, hv0, hd0⟩ :=
      j2g_some (gy - 621) 1 1 (by omega) (by omega) (by omega) (by omega)
    unfold gregorian_to_jalali
    rw [hme]
    simp only [Option.bind_eq_bind, Option.some_bind]
    rw [hg0]
    simp only [Option.bind_eq_bind, Option.some_bind]
    have hiff := dateLt_iff gy gm gd c1 c2 c3 hv' hv0
    by_cases hlt : dayNoOfGreg gy gm gd < dayNoOfGreg c1 c2 c3
    · -- decrement branch: jy must be gy - 622
      have hjy : jy = gy - 622 := by
        rcases eq_or_lt_of_le hrange.1 with heq | hgt
        · exact heq.symm
        · exfalso
          have heq2 : jy = gy - 621 := by omega
          subst heq2
          omega
      subst hjy
      rw [if_pos (hiff.mpr hlt)]
      obtain ⟨f1, f2, f3, hg1, hv1, hd1⟩ :=
        j2g_some (gy - 622) 1 1 (by omega) (by omega) (by omega) (by omega)
      rw [show gy - 621 - 1 = gy - 622 from by omega, hg1]
      simp only [Option.pure_def, Option.bind_eq_bind, Option.some_bind]
      try dsimp only
      rw [show dayNoOfGreg gy gm gd - dayNoOfGreg f1 f2 f3
          = jalaliCumLen (jm - 1) + (jd - 1) from by omega,
        month_formula_inv jm jd _ hm1 hm2 hd3 hd45.1 hd45.2 rfl]
      try dsimp only
      rw [mk?_iff (gy - 622) jm jd (by omega) (by omega),
        if_pos ⟨hm1, hm2, hd3, hd4⟩]
    · -- no decrement: jy must be gy - 621
      have hjy : jy = gy - 621 := by
        rcases eq_or_lt_of_le hrange.2 with heq | hlt2
        · exact heq
        · exfalso
          have heq2 : jy = gy - 622 := by omega
          subst heq2
          omega
      subst hjy
      rw [if_neg (fun hcond2 => hlt (hiff.mp hcond2))]
      simp only [Option.pure_def, Option.bind_eq_bind, Option.some_bind]
      try dsimp only
      rw [show dayNoOfGreg gy gm gd - dayNoOfGreg c1 c2 c3
          = jalaliCumLen (jm - 1) + (jd - 1) from by omega,
        month_formula_inv jm jd _ hm1 hm2 hd3 hd45.1 hd45.2 rfl]
      try dsimp only
      rw [mk?_iff (gy - 621) jm jd (by omega) (by omega),
        if_pos ⟨hm1, hm2, hd3, hd4⟩]

/-! ## String date normalization (the `str` branch of `coerce_gregorian`
and `coerce_jalali`, including CPython's `int()` token parsing) -/

inductive CoerceError where
  | formatError
  | parseError
deriving DecidableEq

/-- `value.replace("/", "-")` on single characters is a character map. -/
def replaceSlash (s : List Char) : List Char :=
  s.map (fun c => if c = '/' then '-' else c)

/-- `str.split("-")`: split on every separator, keeping empty tokens. -/
def splitDash : List Char → List (List Char)
  | [] => [[]]
  | c :: rest =>
    if c = '-' then [] :: splitDash rest
    else
      match splitDash rest with
      | [] => [[c]]
      | t :: ts => (c :: t) :: ts

def isPyDigit (c : Char) : Bool := decide ('0' ≤ c ∧ c ≤ '9')

def isPySpace (c : Char) : Bool := decide (c = ' ' ∨ c = '\t' ∨ c = '\n' ∨ c = '\r')

def stripSpaces (s : List Char) : List Char :=
  ((s.dropWhile isPySpace).reverse.dropWhile isPySpace).reverse

/-- `str.lower()` for the ASCII strings handled here. -/
def pyLower (l : List Char) : List Char :=
  l.map (fun c => if 'A' ≤ c ∧ c ≤ 'Z' then Char.ofNat (c.toNat + 32) else c)

/-- `value.strip().lower()` as a `String → String` operation. -/
def pyNormalize (s : String) : String :=
  ⟨pyLower (stripSpaces s.toList)⟩

/-- Value of a nonempty all-digit token. -/
def digitsVal (l : List Char) : Option Nat :=
  if l ≠ [] ∧ l.all isPyDigit then
    some (l.foldl (fun a c => a * 10 + (c.toNat - 48)) 0)
  else none

/-- CPython `int(token)`: strip whitespace, optional sign, decimal digits. -/
def parsePyInt (s : List Char) : Option Int :=
  match stripSpaces s with
  | '+' :: rest => (digitsVal rest).map Int.ofNat
  | '-' :: rest => (digitsVal rest).map (fun n => -(n : Int))
  | t => (digitsVal t).map Int.ofNat

def coerce_gregorian_str (s : List Char) : Except CoerceError (Int × Int × Int) :=
  match splitDash (replaceSlash s) with
  | [a, b, c] =>
    match parsePyInt a, parsePyInt b, parsePyInt c with
    | some x, some y, some z => .ok (x, y, z)
    | _, _, _ => .error .parseError
  | _ => .error .formatError

def coerce_jalali_str (s : List Char) : Except CoerceError (Int × Int × Int) :=
  match splitDash (replaceSlash s) with
  | [a, b, c] =>
    match parsePyInt a, parsePyInt b, parsePyInt c with
    | some x, some y, some z => .ok (x, y, z)
    | _, _, _ => .error .parseError
  | _ => .error .formatError

/-! ## Preference resolver

Embeds `preferences.py` in the frappe-unavailable configuration: the module
falls back to `_FALLBACK_STORE`, embedded here as an explicit `PrefStore`
value threaded through each operation.  Python's raised exceptions become
`Except` errors paired with the store at the moment of the raise (no write
has happened at any raise site, so the paired store is the input store). -/

inductive CalendarSource where
  | default
  | system
  | user
deriving DecidableEq

structure CalendarSelection where
  value : String
  source : CalendarSource
deriving DecidableEq

def DEFAULT_CALENDAR : String := "jalali"

def VALID_CALENDARS : List String := ["gregorian", "jalali"]

/-- The fallback store: one optional system slot and a per-user map
(`(u, v) ::` shadows older entries, matching dict assignment). -/
structure PrefStore where
  system : Option String
  user : List (String × String)
deriving DecidableEq

def emptyStore : PrefStore := ⟨none, []⟩

inductive PrefError where
  | validationError
  | identityError
deriving DecidableEq

/-- Python truthiness of an optional string: `None` and `""` are falsy. -/
def isTruthy (v : Option String) : Bool :=
  match v with
  | none => false
  | some t => decide (t ≠ "")

/-- `stored or fallback` on an optional string. -/
def orDefault (v : Option String) (dflt : String) : String :=
  match v with
  | none => dflt
  | some t => if t = "" then dflt else t

def _normalize_calendar (value : Option String) : Option String :=
  match value with
  | none => none
  | some s =>
    let normalized := pyNormalize s
    if normalized ∈ VALID_CALENDARS then some normalized else none

def _require_calendar (value : Option String) : Except PrefError String :=
  match _normalize_calendar value with
  | some normalized => .ok normalized
  | none => .error .validationError

def _read_system_value (s : PrefStore) : Option String :=
  s.system

def _write_system_value (calendar : String) (s : PrefStore) : PrefStore :=
  ⟨some calendar, s.user⟩

def _read_user_value (user : Option String) (s : PrefStore) : Option String :=
  match user with
  | none => none
  | some u => s.user.lookup u

def _write_user_value (calendar : String) (user : Option String) (s : PrefStore) :
    Except PrefError PrefStore :=
  match user with
  | none => .error .identityError
  | some u => .ok ⟨s.system, (u, calendar) :: s.user⟩

def get_system_calendar (raw : Bool) (s : PrefStore) : String :=
  if raw then orDefault (_read_system_value s) ""
  else orDefault (_read_system_value s) DEFAULT_CALENDAR

def get_user_calendar (user : Option String) (s : PrefStore) : Option String :=
  _read_user_value user s

def resolve_calendar (user : Option String) (s : PrefStore) : CalendarSelection :=
  let user_value := get_user_calendar user s
  if isTruthy user_value then ⟨user_value.getD "", CalendarSource.user⟩
  else
    let system_raw := get_system_calendar true s
    if system_raw ≠ "" then ⟨system_raw, CalendarSource.system⟩
    else ⟨DEFAULT_CALENDAR, CalendarSource.default⟩

def set_system_calendar (calendar : Option String) (s : PrefStore) :
    Except PrefError CalendarSelection × PrefStore :=
  match _require_calendar calendar with
  | .error e => (.error e, s)
  | .ok selected =>
    let s2 := _write_system_value selected s
    (.ok (resolve_calendar none s2), s2)

def set_user_calendar (calendar : Option String) (user : Option String) (s : PrefStore) :
    Except PrefError CalendarSelection × PrefStore :=
  match _require_calendar calendar with
  | .error e => (.error e, s)
  | .ok selected =>
    match _write_user_value selected user s with
    | .error e => (.error e, s)
    | .ok s2 => (.ok (resolve_calendar user s2), s2)

def is_jalali_enabled (user : Option String) (s : PrefStore) : Bool :=
  decide ((resolve_calendar user s).value = "jalali")

/-- Serializable context: optional keys become `Option` fields (`none`
models an omitted key). -/
structure PreferenceContext where
  active_calendar : String
  source : CalendarSource
  is_jalali_enabled : Bool
  system_calendar : Option String
  user_calendar : Option String
deriving DecidableEq

def get_preference_context (user : Option String) (s : PrefStore) : PreferenceContext :=
  let resolved := resolve_calendar user s
  ⟨resolved.value, resolved.source, decide (resolved.value = "jalali"),
    (if get_system_calendar true s ≠ "" then some (get_system_calendar true s) else none),
    (match get_user_calendar user s with
      | none => none
      | some v => if v ≠ "" then some v else none)⟩

def set_calendar_preference (scope : String) (calendar user : Option String)
    (s : PrefStore) : Except PrefError PreferenceContext × PrefStore :=
  let normalized_scope := pyNormalize (if scope = "" then "user" else scope)
  if normalized_scope = "system" then
    match set_system_calendar calendar s with
    | (.error e, s2) => (.error e, s2)
    | (.ok _, s2) => (.ok (get_preference_context none s2), s2)
  else if normalized_scope = "user" then
    match set_user_calendar calendar user s with
    | (.error e, s2) => (.error e, s2)
    | (.ok _, s2) => (.ok (get_preference_context user s2), s2)
  else (.error .validationError, s)

theorem replaceSlash_append (x y : List Char) :
    replaceSlash (x ++ y) = replaceSlash x ++ replaceSlash y :=
  List.map_append _ x y

theorem replaceSlash_cons (ch : Char) (x : List Char) :
    replaceSlash (ch :: x) = (if ch = '/' then '-' else ch) :: replaceSlash x := rfl

theorem replaceSlash_no_slash (x : List Char) (h : '/' ∉ x) : replaceSlash x = x := by
  induction x with
  | nil => rfl
  | cons c cs ih =>
    rw [replaceSlash_cons, if_neg (fun hc => h (List.mem_cons.mpr (Or.inl hc.symm))),
      ih (fun hm => h (List.mem_cons_of_mem c hm))]

theorem splitDash_cons (ch : Char) (rest : List Char) :
    splitDash (ch :: rest) = if ch = '-' then [] :: splitDash rest
      else match splitDash rest with
        | [] => [[ch]]
        | t :: ts => (ch :: t) :: ts := by
  rw [splitDash]

theorem splitDash_no_dash (x : List Char) (h : '-' ∉ x) : splitDash x = [x] := by
  induction x with
  | nil => rfl
  | cons c cs ih =>
    rw [splitDash_cons, if_neg (fun hc => h (List.mem_cons.mpr (Or.inl hc.symm))),
      ih (fun hm => h (List.mem_cons_of_mem c hm))]

theorem splitDash_sep (a rest : List Char) (h : '-' ∉ a) :
    splitDash (a ++ '-' :: rest) = a :: splitDash rest := by
  induction a with
  | nil =>
    show splitDash ('-' :: rest) = [] :: splitDash rest
    rw [splitDash_cons, if_pos rfl]
  | cons c cs ih =>
    have hc : ¬ c = '-' := fun hc => h (List.mem_cons.mpr (Or.inl hc.symm))
    have ih2 := ih (fun hm => h (List.mem_cons_of_mem c hm))
    show splitDash (c :: (cs ++ '-' :: rest)) = (c :: cs) :: splitDash rest
    rw [splitDash_cons, if_neg hc, ih2]

/-- Both renderings of a three-token date split to the same token list. -/
theorem tokens_of_delims (a b c : List Char)
    (ha1 : '/' ∉ a) (ha2 : '-' ∉ a) (hb1 : '/' ∉ b) (hb2 : '-' ∉ b)
    (hc1 : '/' ∉ c) (hc2 : '-' ∉ c) :
    splitDash (replaceSlash (a ++ '/' :: (b ++ '/' :: c))) = [a, b, c] ∧
    splitDash (replaceSlash (a ++ '-' :: (b ++ '-' :: c))) = [a, b, c] := by
  constructor
  · rw [replaceSlash_append, replaceSlash_cons, replaceSlash_append, replaceSlash_cons,
      if_pos rfl, replaceSlash_no_slash a ha1, replaceSlash_no_slash b hb1,
      replaceSlash_no_slash c hc1, splitDash_sep a _ ha2, splitDash_sep b _ hb2,
      splitDash_no_dash c hc2]
  · rw [replaceSlash_append, replaceSlash_cons, replaceSlash_append, replaceSlash_cons,
      if_neg (by decide), replaceSlash_no_slash a ha1, replaceSlash_no_slash b hb1,
      replaceSlash_no_slash c hc1, splitDash_sep a _ ha2, splitDash_sep b _ hb2,
      splitDash_no_dash c hc2]

/-- The two delimiters normalize identically through both coercers. -/
theorem coerce_slash_dash (a b c : List Char)
    (ha1 : '/' ∉ a) (ha2 : '-' ∉ a) (hb1 : '/' ∉ b) (hb2 : '-' ∉ b)
    (hc1 : '/' ∉ c) (hc2 : '-' ∉ c) :
    coerce_gregorian_str (a ++ '/' :: (b ++ '/' :: c))
      = coerce_gregorian_str (a ++ '-' :: (b ++ '-' :: c)) ∧
    coerce_jalali_str (a ++ '/' :: (b ++ '/' :: c))
      = coerce_jalali_str (a ++ '-' :: (b ++ '-' :: c)) := by
  obtain ⟨t1, t2⟩ := tokens_of_delims a b c ha1 ha2 hb1 hb2 hc1 hc2
  constructor
  · unfold coerce_gregorian_str
    rw [t1, t2]
  · unfold coerce_jalali_str
    rw [t1, t2]

/-- Wrong token count yields the format error, for both coercers. -/
theorem coerce_format_error (s : List Char)
    (h : (splitDash (replaceSlash s)).length ≠ 3) :
    coerce_gregorian_str s = .error .formatError ∧
    coerce_jalali_str s = .error .formatError := by
  constructor
  · unfold coerce_gregorian_str
    split
    · rename_i a b c heq
      exact absurd (by rw [heq]; rfl) h
    · rfl
  · unfold coerce_jalali_str
    split
    · rename_i a b c heq
      exact absurd (by rw [heq]; rfl) h
    · rfl

deriving instance DecidableEq for Except

/-! ## Claims -/

/-- C1: On Gregorian years 1800..2200 the two conversions are mutually
inverse: `jalali_to_gregorian (gregorian_to_jalali d) = d` for every valid
Gregorian date `d` in range, and `gregorian_to_jalali (jalali_to_gregorian j)
= j` for every valid Jalali triple `j` whose Gregorian image lies in that
range. -/
theorem claim_C1_roundtrip :
    (∀ gy gm gd : Int, 1800 ≤ gy → gy ≤ 2200 → ValidGreg gy gm gd →
      ∃ j : JalaliDate, gregorian_to_jalali gy gm gd = some j ∧
        jalali_to_gregorian j.year j.month j.day = some (gy, gm, gd)) ∧
    (∀ jy jm jd gy gm gd : Int, ValidJalaliB jy jm jd →
      jalali_to_gregorian jy jm jd = some (gy, gm, gd) →
      1800 ≤ gy → gy ≤ 2200 →
      gregorian_to_jalali gy gm gd = some ⟨jy, jm, jd⟩) := by
  constructor
  · intro gy gm gd h1 h2 hv
    obtain ⟨jy, jm, jd, hg, hvj, hback, _, _, _⟩ := g2j_roundtrip gy gm gd h1 h2 hv
    exact ⟨⟨jy, jm, jd⟩, hg, hback⟩
  · intro jy jm jd gy gm gd hvj hg h1 h2
    exact j2g_roundtrip jy jm jd gy gm gd hvj hg h1 h2

theorem claim_C1_roundtrip_witness :
    (∃ j : JalaliDate, gregorian_to_jalali 2024 3 20 = some j ∧
      jalali_to_gregorian j.year j.month j.day = some (2024, 3, 20)) ∧
    gregorian_to_jalali 2023 3 21 = some ⟨1402, 1, 1⟩ :=
  ⟨claim_C1_roundtrip.1 2024 3 20 (by decide) (by decide) (by decide),
    claim_C1_roundtrip.2 1402 1 1 2023 3 21 (by decide) (by decide)
      (by decide) (by decide)⟩

/-- C3: the known fixed points convert in both directions and the known
leap-year table holds. -/
theorem claim_C3_known_values :
    gregorian_to_jalali 2024 3 20 = some ⟨1403, 1, 1⟩ ∧
    gregorian_to_jalali 2023 3 21 = some ⟨1402, 1, 1⟩ ∧
    gregorian_to_jalali 2017 1 1 = some ⟨1395, 10, 12⟩ ∧
    jalali_to_gregorian 1403 1 1 = some (2024, 3, 20) ∧
    jalali_to_gregorian 1402 1 1 = some (2023, 3, 21) ∧
    jalali_to_gregorian 1395 10 12 = some (2017, 1, 1) ∧
    is_jalali_leap 1399 = some true ∧
    is_jalali_leap 1403 = some true ∧
    is_jalali_leap 1400 = some false := by
  refine ⟨by decide, by decide, by decide, by decide, by decide, by decide,
    by decide, by decide, by decide⟩

/-- C8: for every valid normalized Jalali triple, the residual day number
entering the Gregorian month loop is nonnegative and strictly below the
length of the Gregorian year being decomposed, so the loop always lands on
a month and the defensive failure branch is unreachable. -/
theorem claim_C8_loop_unreachable :
    ∀ jy jm jd : Int, ValidJalaliB jy jm jd →
      ∃ cum : Int, sumFirst (jm - 1).toNat _JALALI_MONTH_LENGTHS = some cum ∧
        (0 ≤ (yearSplit (365 * (jy - 979) + (jy - 979) / 33 * 8 +
            ((jy - 979) % 33 + 3) / 4 + cum + (jd - 1) + 79)).rest ∧
          (yearSplit (365 * (jy - 979) + (jy - 979) / 33 * 8 +
            ((jy - 979) % 33 + 3) / 4 + cum + (jd - 1) + 79)).rest
            < 365 + (if (yearSplit (365 * (jy - 979) + (jy - 979) / 33 * 8 +
                ((jy - 979) % 33 + 3) / 4 + cum + (jd - 1) + 79)).leap then 1 else 0) ∧
          (monthWalk
            (yearSplit (365 * (jy - 979) + (jy - 979) / 33 * 8 +
              ((jy - 979) % 33 + 3) / 4 + cum + (jd - 1) + 79)).leap
            (yearSplit (365 * (jy - 979) + (jy - 979) / 33 * 8 +
              ((jy - 979) % 33 + 3) / 4 + cum + (jd - 1) + 79)).rest
            0 _GREGORIAN_MONTH_LENGTHS).isSome = true) := by
  intro jy jm jd hvj
  refine ⟨jalaliCumLen (jm - 1), sumFirst_jalali jm hvj.1 hvj.2.1, ?_, ?_, ?_⟩
  · exact (yearSplit_left_inverse _).2.2.1
  · exact (yearSplit_left_inverse _).2.2.2
  · obtain ⟨m0, d0, hw⟩ := monthWalk_total _ _
      (yearSplit_left_inverse (365 * (jy - 979) + (jy - 979) / 33 * 8 +
        ((jy - 979) % 33 + 3) / 4 + jalaliCumLen (jm - 1) + (jd - 1) + 79)).2.2.1
      (yearSplit_left_inverse _).2.2.2
    rw [hw]
    rfl

theorem claim_C8_loop_unreachable_witness :
    ∃ cum : Int, sumFirst ((10 : Int) - 1).toNat _JALALI_MONTH_LENGTHS = some cum ∧
      (0 ≤ (yearSplit (365 * (1395 - 979) + (1395 - 979) / 33 * 8 +
          ((1395 - 979) % 33 + 3) / 4 + cum + (12 - 1) + 79)).rest ∧
        (yearSplit (365 * (1395 - 979) + (1395 - 979) / 33 * 8 +
          ((1395 - 979) % 33 + 3) / 4 + cum + (12 - 1) + 79)).rest
          < 365 + (if (yearSplit (365 * (1395 - 979) + (1395 - 979) / 33 * 8 +
              ((1395 - 979) % 33 + 3) / 4 + cum + (12 - 1) + 79)).leap then 1 else 0) ∧
        (monthWalk
          (yearSplit (365 * (1395 - 979) + (1395 - 979) / 33 * 8 +
            ((1395 - 979) % 33 + 3) / 4 + cum + (12 - 1) + 79)).leap
          (yearSplit (365 * (1395 - 979) + (1395 - 979) / 33 * 8 +
            ((1395 - 979) % 33 + 3) / 4 + cum + (12 - 1) + 79)).rest
          0 _GREGORIAN_MONTH_LENGTHS).isSome = true) :=
  claim_C8_loop_unreachable 1395 10 12 (by decide)

/-- C9: on 1800..2200 a single conditional decrement of the candidate year
`gy - 621` suffices: the resolved Jalali year start is on or before the
target, the day offset is between 0 and 365, and the final `JalaliDate`
construction succeeds with in-range fields. -/
theorem claim_C9_single_decrement :
    ∀ gy gm gd : Int, 1800 ≤ gy → gy ≤ 2200 → ValidGreg gy gm gd →
      ∃ j : JalaliDate, gregorian_to_jalali gy gm gd = some j ∧
        (j.year = gy - 621 ∨ j.year = gy - 622) ∧
        jalaliYearStartDayNo j.year ≤ dayNoOfGreg gy gm gd ∧
        0 ≤ dayNoOfGreg gy gm gd - jalaliYearStartDayNo j.year ∧
        dayNoOfGreg gy gm gd - jalaliYearStartDayNo j.year ≤ 365 ∧
        ValidJalaliB j.year j.month j.day := by
  intro gy gm gd h1 h2 hv
  obtain ⟨jy, jm, jd, hg, hvj, hback, hpick, hlo, hhi⟩ := g2j_roundtrip gy gm gd h1 h2 hv
  have hs := jalaliYearStart_succ jy
  refine ⟨⟨jy, jm, jd⟩, hg, hpick, ?_, ?_, ?_, hvj⟩ <;> dsimp only <;> omega

theorem claim_C9_single_decrement_witness :
    ∃ j : JalaliDate, gregorian_to_jalali 2017 1 1 = some j ∧
      (j.year = 2017 - 621 ∨ j.year = 2017 - 622) ∧
      jalaliYearStartDayNo j.year ≤ dayNoOfGreg 2017 1 1 ∧
      0 ≤ dayNoOfGreg 2017 1 1 - jalaliYearStartDayNo j.year ∧
      dayNoOfGreg 2017 1 1 - jalaliYearStartDayNo j.year ≤ 365 ∧
      ValidJalaliB j.year j.month j.day :=
  claim_C9_single_decrement 2017 1 1 (by decide) (by decide) (by decide)

/-- C2: for Jalali years in the supported range, the three leap
characterizations agree: `is_jalali_leap y` holds iff month 12 of `y` has
30 days, iff the day gap between the Gregorian images of Farvardin 1 of
`y` and of `y + 1` is 366 days. -/
theorem claim_C2_leap_consistency :
    ∀ y : Int, 1179 ≤ y → y ≤ 1578 →
      ((is_jalali_leap y = some true) ↔ (_jalali_month_length y 12 = some 30)) ∧
      ((is_jalali_leap y = some true) ↔
        (∃ a b : Int × Int × Int, jalali_to_gregorian y 1 1 = some a ∧
          jalali_to_gregorian (y + 1) 1 1 = some b ∧
          dayNoOfGreg b.1 b.2.1 b.2.2 - dayNoOfGreg a.1 a.2.1 a.2.2 = 366)) := by
  intro y h1 h2
  have hle := is_jalali_leap_eq y (by omega) (by omega)
  have hml := jalali_month_length_eq y 12 (by omega) (by omega)
  have hc : jalaliCumLen (1 - 1) = 0 := rfl
  have e1 : jalaliYearStartDayNo 1178 = 72763 := by decide
  have e2 : jalaliYearStartDayNo 1582 = 220321 := by decide
  have m1 := jalaliYearStart_mono 1178 y (by omega)
  have m2 := jalaliYearStart_mono (y + 1 + 1) 1582 (by omega)
  have s1 := jalaliYearStart_succ y
  have s2 := jalaliYearStart_succ (y + 1)
  obtain ⟨a1, a2, a3, hg1, hv1, hd1⟩ := j2g_some y 1 1 (by omega) (by omega) (by omega) (by omega)
  obtain ⟨b1, b2, b3, hg2, hv2, hd2⟩ :=
    j2g_some (y + 1) 1 1 (by omega) (by omega) (by omega) (by omega)
  constructor
  · rw [hle, hml]
    constructor
    · intro hT
      have hLB : jLeapB y = true := by
        have := Option.some.injEq (jLeapB y) true ▸ hT
        simpa using this
      have : jalaliMonthLenB y 12 = 30 := by
        unfold jalaliMonthLenB
        rw [if_neg (by omega), if_neg (by omega), hLB, if_pos rfl]
      rw [this]
    · intro hT
      have hl : jalaliMonthLenB y 12 = 30 := by
        have := Option.some.injEq (jalaliMonthLenB y 12) 30 ▸ hT
        simpa using this
      unfold jalaliMonthLenB at hl
      rw [if_neg (by omega), if_neg (by omega)] at hl
      by_cases hL : jLeapB y = true
      · rw [hL]
      · rw [if_neg hL] at hl
        exact absurd hl (by decide)
  · rw [hle]
    constructor
    · intro hT
      have hLB : jLeapB y = true := by
        have := Option.some.injEq (jLeapB y) true ▸ hT
        simpa using this
      have hgap : jalaliYearStartDayNo (y + 1) - jalaliYearStartDayNo y = 366 :=
        (jLeapB_iff y) ▸ hLB
      refine ⟨(a1, a2, a3), (b1, b2, b3), hg1, hg2, ?_⟩
      dsimp only
      omega
    · rintro ⟨a, b, ha, hb, hdiff⟩
      rw [hg1] at ha
      rw [hg2] at hb
      have ha2 : a = (a1, a2, a3) := by
        have := Option.some.injEq (a1, a2, a3) a ▸ ha
        simpa using this.symm
      have hb2 : b = (b1, b2, b3) := by
        have := Option.some.injEq (b1, b2, b3) b ▸ hb
        simpa using this.symm
      subst ha2
      subst hb2
      dsimp only at hdiff
      have hLB : jLeapB y = true := by
        rw [jLeapB_iff y]
        omega
      rw [hLB]

theorem claim_C2_leap_consistency_witness :
    ((is_jalali_leap 1403 = some true) ↔ (_jalali_month_length 1403 12 = some 30)) ∧
    ((is_jalali_leap 1403 = some true) ↔
      (∃ a b : Int × Int × Int, jalali_to_gregorian 1403 1 1 = some a ∧
        jalali_to_gregorian (1403 + 1) 1 1 = some b ∧
        dayNoOfGreg b.1 b.2.1 b.2.2 - dayNoOfGreg a.1 a.2.1 a.2.2 = 366)) :=
  claim_C2_leap_consistency 1403 (by decide) (by decide)

/-- C4: constructing a `JalaliDate` succeeds exactly when the month is in
1..12 and the day is within the month length computed by
`_jalali_month_length`; a successful construction carries exactly the given
fields, and `JalaliDate(y, 12, 30)` succeeds iff year `y` is leap. -/
theorem claim_C4_validation :
    ∀ y : Int, 1179 ≤ y → y ≤ 1578 →
      (∀ m d : Int,
        ((∃ j : JalaliDate, JalaliDate.mk? y m d = some j) ↔
          (1 ≤ m ∧ m ≤ 12 ∧ ∃ L : Int, _jalali_month_length y m = some L ∧ 1 ≤ d ∧ d ≤ L)) ∧
        (∀ j : JalaliDate, JalaliDate.mk? y m d = some j → j = ⟨y, m, d⟩)) ∧
      ((∃ j : JalaliDate, JalaliDate.mk? y 12 30 = some j) ↔ is_jalali_leap y = some true) := by
  intro y h1 h2
  have hle := is_jalali_leap_eq y (by omega) (by omega)
  constructor
  · intro m d
    have hml := jalali_month_length_eq y m (by omega) (by omega)
    rw [mk?_iff y m d (by omega) (by omega)]
    constructor
    · constructor
      · intro hj
        by_cases hvj : ValidJalaliB y m d
        · exact ⟨hvj.1, hvj.2.1, jalaliMonthLenB y m, hml, hvj.2.2.1, hvj.2.2.2⟩
        · rw [if_neg hvj] at hj
          exact absurd hj.choose_spec (by simp)
      · rintro ⟨hm1, hm2, L, hL, hd1, hd2⟩
        have : L = jalaliMonthLenB y m := by
          rw [hml] at hL
          have := Option.some.injEq (jalaliMonthLenB y m) L ▸ hL
          simpa using this.symm
        subst this
        rw [if_pos ⟨hm1, hm2, hd1, hd2⟩]
        exact ⟨⟨y, m, d⟩, rfl⟩
    · intro j hj
      by_cases hvj : ValidJalaliB y m d
      · rw [if_pos hvj] at hj
        have := Option.some.injEq (⟨y, m, d⟩ : JalaliDate) j ▸ hj
        simpa using this.symm
      · rw [if_neg hvj] at hj
        exact absurd hj (by simp)
  · rw [mk?_iff y 12 30 (by omega) (by omega), hle]
    constructor
    · intro hj
      by_cases hvj : ValidJalaliB y 12 30
      · have hlen := hvj.2.2.2
        unfold jalaliMonthLenB at hlen
        rw [if_neg (by omega), if_neg (by omega)] at hlen
        by_cases hL : jLeapB y = true
        · rw [hL]
        · rw [if_neg hL] at hlen
          omega
      · rw [if_neg hvj] at hj
        exact absurd hj.choose_spec (by simp)
    · intro hT
      have hLB : jLeapB y = true := by
        have := Option.some.injEq (jLeapB y) true ▸ hT
        simpa using this
      have hvj : ValidJalaliB y 12 30 := by
        refine ⟨by omega, by omega, by omega, ?_⟩
        unfold jalaliMonthLenB
        rw [if_neg (by omega), if_neg (by omega), hLB, if_pos rfl]
      rw [if_pos hvj]
      exact ⟨⟨y, 12, 30⟩, rfl⟩

theorem claim_C4_validation_witness :
    ((∀ m d : Int,
      ((∃ j : JalaliDate, JalaliDate.mk? 1403 m d = some j) ↔
        (1 ≤ m ∧ m ≤ 12 ∧ ∃ L : Int, _jalali_month_length 1403 m = some L ∧ 1 ≤ d ∧ d ≤ L)) ∧
      (∀ j : JalaliDate, JalaliDate.mk? 1403 m d = some j → j = ⟨1403, m, d⟩)) ∧
      ((∃ j : JalaliDate, JalaliDate.mk? 1403 12 30 = some j) ↔
        is_jalali_leap 1403 = some true)) ∧
    JalaliDate.mk? 1403 12 30 = some ⟨1403, 12, 30⟩ ∧
    JalaliDate.mk? 1400 12 30 = none :=
  ⟨claim_C4_validation 1403 (by decide) (by decide), by decide, by decide⟩

/-- C5: the `/`-delimited and `-`-delimited renderings of a date normalize
identically through both string coercers (shown generally for any three
delimiter-free tokens and on the concrete example), and every string that
does not split into exactly three tokens fails with the format error. -/
theorem claim_C5_string_normalization :
    (∀ a b c : List Char,
      '/' ∉ a → '-' ∉ a → '/' ∉ b → '-' ∉ b → '/' ∉ c → '-' ∉ c →
      coerce_gregorian_str (a ++ '/' :: (b ++ '/' :: c))
        = coerce_gregorian_str (a ++ '-' :: (b ++ '-' :: c)) ∧
      coerce_jalali_str (a ++ '/' :: (b ++ '/' :: c))
        = coerce_jalali_str (a ++ '-' :: (b ++ '-' :: c))) ∧
    coerce_gregorian_str "2024/03/20".toList = .ok (2024, 3, 20) ∧
    coerce_gregorian_str "2024-03-20".toList = .ok (2024, 3, 20) ∧
    coerce_jalali_str "1403/01/01".toList = .ok (1403, 1, 1) ∧
    coerce_jalali_str "1403-01-01".toList = .ok (1403, 1, 1) ∧
    (∀ s : List Char, (splitDash (replaceSlash s)).length ≠ 3 →
      coerce_gregorian_str s = .error .formatError ∧
      coerce_jalali_str s = .error .formatError) ∧
    coerce_gregorian_str "2024-03".toList = .error .formatError := by
  refine ⟨?_, by decide, by decide, by decide, by decide, ?_, by decide⟩
  · intro a b c ha1 ha2 hb1 hb2 hc1 hc2
    exact coerce_slash_dash a b c ha1 ha2 hb1 hb2 hc1 hc2
  · intro s h
    exact coerce_format_error s h

theorem claim_C5_string_normalization_witness :
    (coerce_gregorian_str ("2024".toList ++ '/' :: ("03".toList ++ '/' :: "20".toList))
      = coerce_gregorian_str ("2024".toList ++ '-' :: ("03".toList ++ '-' :: "20".toList)) ∧
     coerce_jalali_str ("2024".toList ++ '/' :: ("03".toList ++ '/' :: "20".toList))
      = coerce_jalali_str ("2024".toList ++ '-' :: ("03".toList ++ '-' :: "20".toList))) ∧
    (coerce_gregorian_str "2024".toList = .error .formatError ∧
     coerce_jalali_str "2024".toList = .error .formatError) :=
  ⟨claim_C5_string_normalization.1 "2024".toList "03".toList "20".toList
      (by decide) (by decide) (by decide) (by decide) (by decide) (by decide),
    claim_C5_string_normalization.2.2.2.2.2.1 "2024".toList (by decide)⟩

/-- C6: `resolve_calendar` follows the three-tier precedence.  On the empty
store every user resolves to `("jalali", default)`; after setting the system
calendar to `"gregorian"` every user without an override resolves to
`("gregorian", system)`; after additionally setting one user's calendar to
`"jalali"`, that user resolves to `("jalali", user)` while every other user
still resolves to `("gregorian", system)`. -/
theorem claim_C6_precedence :
    (∀ u : Option String,
      resolve_calendar u emptyStore = ⟨"jalali", CalendarSource.default⟩) ∧
    (∀ u : Option String,
      resolve_calendar u (set_system_calendar (some "gregorian") emptyStore).2
        = ⟨"gregorian", CalendarSource.system⟩) ∧
    (∀ u0 : String,
      resolve_calendar (some u0)
        ((set_user_calendar (some "jalali") (some u0)
          (set_system_calendar (some "gregorian") emptyStore).2).2)
        = ⟨"jalali", CalendarSource.user⟩) ∧
    (∀ u0 u : String, u ≠ u0 →
      resolve_calendar (some u)
        ((set_user_calendar (some "jalali") (some u0)
          (set_system_calendar (some "gregorian") emptyStore).2).2)
        = ⟨"gregorian", CalendarSource.system⟩) := by
  have hsys : (set_system_calendar (some "gregorian") emptyStore).2
      = ⟨some "gregorian", []⟩ := by decide
  refine ⟨?_, ?_, ?_, ?_⟩
  · intro u
    cases u <;> rfl
  · intro u
    rw [hsys]
    cases u <;> rfl
  · intro u0
    have hstore : (set_user_calendar (some "jalali") (some u0)
        (set_system_calendar (some "gregorian") emptyStore).2).2
        = ⟨some "gregorian", [(u0, "jalali")]⟩ := by
      rw [hsys]
      unfold set_user_calendar
      rw [show _require_calendar (some "jalali") = .ok "jalali" from by decide]
      rfl
    rw [hstore]
    have hl : List.lookup u0 [(u0, "jalali")] = some "jalali" := by
      simp [List.lookup]
    unfold resolve_calendar get_user_calendar _read_user_value
    dsimp only
    rw [hl]
    rfl
  · intro u0 u hne
    have hstore : (set_user_calendar (some "jalali") (some u0)
        (set_system_calendar (some "gregorian") emptyStore).2).2
        = ⟨some "gregorian", [(u0, "jalali")]⟩ := by
      rw [hsys]
      unfold set_user_calendar
      rw [show _require_calendar (some "jalali") = .ok "jalali" from by decide]
      rfl
    rw [hstore]
    have hbe : (u == u0) = false := beq_eq_false_iff_ne.mpr hne
    have hl : List.lookup u [(u0, "jalali")] = none := by
      simp [List.lookup, hbe]
    unfold resolve_calendar get_user_calendar _read_user_value
    dsimp only
    rw [hl]
    rfl

theorem require_calendar_ok (t : String)
    (h : pyNormalize t = "jalali" ∨ pyNormalize t = "gregorian") :
    _require_calendar (some t) = .ok (pyNormalize t) := by
  unfold _require_calendar _normalize_calendar
  dsimp only
  rw [if_pos (show pyNormalize t ∈ VALID_CALENDARS from by
    rcases h with h | h <;> rw [h] <;> decide)]

theorem require_calendar_err_some (t : String)
    (h : ¬(pyNormalize t = "jalali" ∨ pyNormalize t = "gregorian")) :
    _require_calendar (some t) = .error .validationError := by
  unfold _require_calendar _normalize_calendar
  dsimp only
  rw [if_neg (fun hm => h (by
    have : pyNormalize t = "gregorian" ∨ pyNormalize t = "jalali" := by
      simpa [VALID_CALENDARS] using hm
    tauto))]

theorem require_calendar_none : _require_calendar none = .error .validationError := rfl

/-- C7 (amended): the system and user setters accept exactly the strings
whose stripped, lowercased form is `"jalali"` or `"gregorian"` and fail
with a validation error on every other string and on `None`; and
`set_calendar_preference` fails with a validation error for every
*non-empty* scope whose stripped, lowercased form is neither `"system"`
nor `"user"` (the empty scope is falsy and falls back to the `"user"`
scope, so it does not fail). -/
theorem claim_C7_calendar_name_validation :
    (∀ t : String, ∀ s : PrefStore,
      ((∃ sel s2, set_system_calendar (some t) s = (.ok sel, s2)) ↔
        (pyNormalize t = "jalali" ∨ pyNormalize t = "gregorian")) ∧
      (¬(pyNormalize t = "jalali" ∨ pyNormalize t = "gregorian") →
        set_system_calendar (some t) s = (.error .validationError, s))) ∧
    (∀ s : PrefStore, set_system_calendar none s = (.error .validationError, s)) ∧
    (∀ t : String, ∀ u : String, ∀ s : PrefStore,
      ((∃ sel s2, set_user_calendar (some t) (some u) s = (.ok sel, s2)) ↔
        (pyNormalize t = "jalali" ∨ pyNormalize t = "gregorian")) ∧
      (¬(pyNormalize t = "jalali" ∨ pyNormalize t = "gregorian") →
        set_user_calendar (some t) (some u) s = (.error .validationError, s))) ∧
    (∀ u : String, ∀ s : PrefStore,
      set_user_calendar none (some u) s = (.error .validationError, s)) ∧
    (∀ scope : String, ∀ cal u : Option String, ∀ s : PrefStore, scope ≠ "" →
      pyNormalize scope ≠ "system" → pyNormalize scope ≠ "user" →
      set_calendar_preference scope cal u s = (.error .validationError, s)) := by
  refine ⟨?_, ?_, ?_, ?_, ?_⟩
  · intro t s
    constructor
    · constructor
      · rintro ⟨sel, s2, hset⟩
        by_contra hbad
        rw [show set_system_calendar (some t) s = (.error .validationError, s) from by
          unfold set_system_calendar
          rw [require_calendar_err_some t hbad]] at hset
        exact absurd (congrArg Prod.fst hset) (by simp)
      · intro hgood
        refine ⟨resolve_calendar none (_write_system_value (pyNormalize t) s),
          _write_system_value (pyNormalize t) s, ?_⟩
        unfold set_system_calendar
        rw [require_calendar_ok t hgood]
    · intro hbad
      unfold set_system_calendar
      rw [require_calendar_err_some t hbad]
  · intro s
    unfold set_system_calendar
    rw [require_calendar_none]
  · intro t u s
    constructor
    · constructor
      · rintro ⟨sel, s2, hset⟩
        by_contra hbad
        rw [show set_user_calendar (some t) (some u) s = (.error .validationError, s) from by
          unfold set_user_calendar
          rw [require_calendar_err_some t hbad]] at hset
        exact absurd (congrArg Prod.fst hset) (by simp)
      · intro hgood
        refine ⟨resolve_calendar (some u) ⟨s.system, (u, pyNormalize t) :: s.user⟩,
          ⟨s.system, (u, pyNormalize t) :: s.user⟩, ?_⟩
        unfold set_user_calendar
        rw [require_calendar_ok t hgood]
        rfl
    · intro hbad
      unfold set_user_calendar
      rw [require_calendar_err_some t hbad]
  · intro u s
    unfold set_user_calendar
    rw [require_calendar_none]
  · intro scope cal u s hne hs hu
    unfold set_calendar_preference
    rw [if_neg hne]
    dsimp only
    rw [if_neg hs, if_neg hu]

/-- C7 counterexample: the claim as stated fails for the empty scope, whose
stripped lowercased form is neither `"system"` nor `"user"`, yet
`set_calendar_preference` succeeds (it treats the falsy scope as the
default `"user"` scope) instead of raising a validation error. -/
theorem claim_C7_counterexample :
    pyNormalize "" ≠ "system" ∧ pyNormalize "" ≠ "user" ∧
    set_calendar_preference "" (some "jalali") (some "alice") emptyStore
      = (.ok ⟨"jalali", CalendarSource.user, true, none, some "jalali"⟩,
        ⟨none, [("alice", "jalali")]⟩) := by
  refine ⟨by decide, by decide, by decide⟩

theorem claim_C7_calendar_name_validation_witness :
    ((∃ sel s2, set_system_calendar (some " Jalali ") emptyStore = (.ok sel, s2)) ∧
      set_system_calendar (some "lunar") emptyStore
        = (.error .validationError, emptyStore)) ∧
    set_calendar_preference "nope" (some "jalali") (some "alice") emptyStore
      = (.error .validationError, emptyStore) :=
  ⟨⟨(claim_C7_calendar_name_validation.1 " Jalali " emptyStore).1.mpr (by decide),
    (claim_C7_calendar_name_validation.1 "lunar" emptyStore).2 (by decide)⟩,
    claim_C7_calendar_name_validation.2.2.2.2 "nope" (some "jalali") (some "alice")
      emptyStore (by decide) (by decide) (by decide)⟩

/-- C10: the setters validate before writing: an invalid calendar (or, for
the user setter, an unresolvable user) raises, and the returned store is
exactly the input store — no slot has been touched. -/
theorem claim_C10_validate_before_write :
    (∀ t : String, ∀ s : PrefStore,
      ¬(pyNormalize t = "jalali" ∨ pyNormalize t = "gregorian") →
      set_system_calendar (some t) s = (.error .validationError, s)) ∧
    (∀ s : PrefStore, set_system_calendar none s = (.error .validationError, s)) ∧
    (∀ t : String, ∀ u : Option String, ∀ s : PrefStore,
      ¬(pyNormalize t = "jalali" ∨ pyNormalize t = "gregorian") →
      set_user_calendar (some t) u s = (.error .validationError, s)) ∧
    (∀ u : Option String, ∀ s : PrefStore,
      set_user_calendar none u s = (.error .validationError, s)) ∧
    (∀ t : String, ∀ s : PrefStore,
      (pyNormalize t = "jalali" ∨ pyNormalize t = "gregorian") →
      set_user_calendar (some t) none s = (.error .identityError, s)) := by
  refine ⟨?_, ?_, ?_, ?_, ?_⟩
  · intro t s hbad
    unfold set_system_calendar
    rw [require_calendar_err_some t hbad]
  · intro s
    unfold set_system_calendar
    rw [require_calendar_none]
  · intro t u s hbad
    unfold set_user_calendar
    rw [require_calendar_err_some t hbad]
  · intro u s
    unfold set_user_calendar
    rw [require_calendar_none]
  · intro t s hgood
    unfold set_user_calendar
    rw [require_calendar_ok t hgood]
    rfl

theorem claim_C10_validate_before_write_witness :
    set_system_calendar (some "lunar") ⟨some "gregorian", [("bob", "jalali")]⟩
      = (.error .validationError, ⟨some "gregorian", [("bob", "jalali")]⟩) ∧
    set_user_calendar (some "jalali") none ⟨some "gregorian", [("bob", "jalali")]⟩
      = (.error .identityError, ⟨some "gregorian", [("bob", "jalali")]⟩) :=
  ⟨claim_C10_validate_before_write.1 "lunar" ⟨some "gregorian", [("bob", "jalali")]⟩
      (by decide),
    claim_C10_validate_before_write.2.2.2.2 "jalali" ⟨some "gregorian", [("bob", "jalali")]⟩
      (by decide)⟩

theorem claim_C6_precedence_witness :
    resolve_calendar (some "bob") emptyStore = ⟨"jalali", CalendarSource.default⟩ ∧
    resolve_calendar none (set_system_calendar (some "gregorian") emptyStore).2
      = ⟨"gregorian", CalendarSource.system⟩ ∧
    resolve_calendar (some "alice")
      ((set_user_calendar (some "jalali") (some "alice")
        (set_system_calendar (some "gregorian") emptyStore).2).2)
      = ⟨"jalali", CalendarSource.user⟩ ∧
    resolve_calendar (some "bob")
      ((set_user_calendar (some "jalali") (some "alice")
        (set_system_calendar (some "gregorian") emptyStore).2).2)
      = ⟨"gregorian", CalendarSource.system⟩ :=
  ⟨claim_C6_precedence.1 (some "bob"), claim_C6_precedence.2.1 none,
    claim_C6_precedence.2.2.1 "alice",
    claim_C6_precedence.2.2.2 "alice" "bob" (by decide)⟩
